/- Formal model of the Sustainability Tracker application (src/app.py):
   the emissions category aggregation, the streak computation, and the
   eco-tips PDF report builder (`build_eco_tips_pdf`). -/
import Mathlib

namespace SustainabilityTracker

/-- Mapping from emission category to its activity keys (app.py `CATEGORY_MAP`). -/
def CATEGORY_MAP : List (String × List String) :=
  [("Energy",
    ["electricity_kwh", "natural_gas_m3", "hot_water_liter", "cold_water_liter",
     "district_heating_kwh", "propane_liter", "fuel_oil_liter"]),
   ("Transport",
    ["petrol_liter", "diesel_liter", "bus_km", "train_km", "bicycle_km",
     "flight_short_km", "flight_long_km"]),
   ("Meals",
    ["meat_kg", "chicken_kg", "eggs_kg", "dairy_kg", "vegetarian_kg", "vegan_kg"])]

/-- Flattened list of all activity keys (app.py `ALL_KEYS`). -/
def ALL_KEYS : List String := (CATEGORY_MAP.map Prod.snd).flatten

/-- Python `float(activity_data.get(k, 0) or 0)`: a missing key or a `None`
value contributes 0; otherwise the numeric value itself (`0 or 0` is 0, the
same value). Dictionaries are modelled as association lists whose values may
be `none` (Python `None`). -/
def pyAmt (activity_data : List (String × Option ℚ)) (k : String) : ℚ :=
  match activity_data.lookup k with
  | some (some v) => v
  | _ => 0

/-- Round-half-to-even to an integer, the tie behavior of Python `round`. -/
def roundHalfEven (q : ℚ) : ℤ :=
  let f := ⌊q⌋
  let r := q - f
  if r < 1/2 then f
  else if 1/2 < r then f + 1
  else if f % 2 = 0 then f else f + 1

/-- Python `round(x, 2)`. -/
def round2 (q : ℚ) : ℚ := (roundHalfEven (q * 100) : ℚ) / 100

/-- app.py `compute_category_emissions`. The emission factor table
`CO2_FACTORS` lives in `co2_engine.py` (an external collaborator of this
module), so it is passed as a parameter: `factors k = none` models a key
without an emission factor (`CO2_FACTORS.get(k) is None`). -/
def compute_category_emissions (factors : String → Option ℚ)
    (activity_data : List (String × Option ℚ)) : List (String × ℚ) :=
  CATEGORY_MAP.map (fun ck =>
    (ck.1, round2 (ck.2.foldl (fun subtotal k =>
      match factors k with
      | some factor => subtotal + pyAmt activity_data k * factor
      | none => subtotal) 0)))

/-- The `while current in dayset` loop of app.py `compute_streak`: walk
backwards one day at a time while the day is in the logged-date set.
Dates are modelled as integer day numbers. Termination: the finite set of
logged days at or before `d` shrinks at each step. -/
def streakLoop (s : Finset ℤ) (d : ℤ) : ℕ :=
  if h : d ∈ s then streakLoop s (d - 1) + 1 else 0
termination_by (s.filter (fun x => x ≤ d)).card
decreasing_by
  apply Finset.card_lt_card
  rw [Finset.ssubset_iff_of_subset
    (Finset.monotone_filter_right s (by intro x hx; omega))]
  exact ⟨d, by simp [h], by simp⟩

/-- app.py `compute_streak`: 0 for an empty history, else the backwards walk
from `date_val` through the set of logged dates. -/
def compute_streak (hist : List ℤ) (date_val : ℤ) : ℕ :=
  if hist = [] then 0 else streakLoop hist.toFinset date_val

/- ===================== PDF builder model =====================
The drawing surface (a reportlab canvas) is modelled as a recorder of draw
operations. All lengths are in centimetres: every vertical quantity in
`build_eco_tips_pdf` is a multiple of reportlab's `cm` unit, and landscape A4
is 29.7cm x 21cm, so dividing through by `cm` gives exact rational
coordinates. Font sizes stay in points, as in the source. -/

/-- An RGB fill color, each channel in [0,1] (reportlab color model). -/
inductive Col where
  | rgb (r g b : ℚ)
deriving DecidableEq

/-- Black, the reportlab default fill (`setFillColorRGB(0, 0, 0)`). -/
def Col.black : Col := .rgb 0 0 0

/-- White, used for the badge initials (`setFillColorRGB(1, 1, 1)`). -/
def Col.white : Col := .rgb 1 1 1

/-- Origin of a raster image drawn into the document. -/
inductive ImgSrc where
  | logo
  | spark (cat : String)
  | pie
deriving DecidableEq

/-- One recorded draw operation: a text string (drawString and friends), a
raster image (drawImage), or a filled rounded rectangle (roundRect). -/
inductive Item where
  | text (x y : ℚ) (font : String) (size : ℚ) (col : Col) (s : String)
  | image (src : ImgSrc) (x y w h : ℚ)
  | rect (x y w h rad : ℚ) (col : Col)
deriving DecidableEq

/-- Text content of an item (empty for images and rectangles). -/
def Item.str : Item → String
  | .text _ _ _ _ _ s => s
  | _ => ""

/-- Vertical position of an item. -/
def Item.yPos : Item → ℚ
  | .text _ y _ _ _ _ => y
  | .image _ _ y _ _ => y
  | .rect _ y _ _ _ _ => y

/-- Whether the item is a text draw. -/
def Item.isText : Item → Bool
  | .text _ _ _ _ _ _ => true
  | _ => false

/-- Fill color of an item (black for images, which carry no fill). -/
def Item.col : Item → Col
  | .text _ _ _ _ c _ => c
  | .image _ _ _ _ _ => Col.black
  | .rect _ _ _ _ _ c => c

/-- Whether the item is the pie chart image. -/
def Item.isPie : Item → Bool
  | .image .pie _ _ _ _ => true
  | _ => false

/-- Whether the item is the logo image. -/
def Item.isLogo : Item → Bool
  | .image .logo _ _ _ _ => true
  | _ => false

/-- Whether the item is a rounded rectangle (only the fallback badge draws one). -/
def Item.isRect : Item → Bool
  | .rect _ _ _ _ _ _ => true
  | _ => false

/-- The reportlab canvas state: finished pages, the page being drawn, the
current font and fill color, and the 1-based page number. -/
structure Canvas where
  pages : List (List Item)
  cur : List Item
  font : String
  fontSize : ℚ
  fill : Col
  pageNo : ℕ
deriving DecidableEq

/-- A fresh canvas as `canvas.Canvas(buf, pagesize=...)` creates it. -/
def initialCanvas : Canvas :=
  { pages := [], cur := [], font := "Helvetica", fontSize := 12,
    fill := Col.black, pageNo := 1 }

/-- Every item committed to the canvas so far, in draw order. -/
def Canvas.allItems (c : Canvas) : List Item := c.pages.flatten ++ c.cur

/-- `c.drawString(x, y, s)` (also used for the centred/right-aligned
variants; alignment is a rendering detail not tracked by the model). -/
def drawString (x y : ℚ) (s : String) (c : Canvas) : Canvas :=
  { c with cur := c.cur ++ [.text x y c.font c.fontSize c.fill s] }

/-- `c.drawImage(img, x, y, width=w, height=h, ...)`. -/
def drawImage (src : ImgSrc) (x y w h : ℚ) (c : Canvas) : Canvas :=
  { c with cur := c.cur ++ [.image src x y w h] }

/-- `c.roundRect(x, y, w, h, rad, fill=1, stroke=0)`: filled with the current
fill color. -/
def roundRect (x y w h rad : ℚ) (c : Canvas) : Canvas :=
  { c with cur := c.cur ++ [.rect x y w h rad c.fill] }

/-- `c.setFont(name, size)`. -/
def setFont (f : String) (sz : ℚ) (c : Canvas) : Canvas :=
  { c with font := f, fontSize := sz }

/-- `c.setFillColor(col)` / `c.setFillColorRGB(r, g, b)`. -/
def setFill (col : Col) (c : Canvas) : Canvas := { c with fill := col }

/-- `c.showPage()`: commit the current page and reset the graphics state
(font and fill revert to the reportlab defaults). -/
def showPage (c : Canvas) : Canvas :=
  { pages := c.pages ++ [c.cur], cur := [], font := "Helvetica", fontSize := 12,
    fill := Col.black, pageNo := c.pageNo + 1 }

/-- Value of one hex digit. -/
def hexDigitVal (ch : Char) : Option ℕ :=
  if '0' ≤ ch ∧ ch ≤ '9' then some (ch.toNat - '0'.toNat)
  else if 'a' ≤ ch ∧ ch ≤ 'f' then some (ch.toNat - 'a'.toNat + 10)
  else if 'A' ≤ ch ∧ ch ≤ 'F' then some (ch.toNat - 'A'.toNat + 10)
  else none

/-- Hex value of a digit string, `none` if any character is not a hex digit. -/
def hexVal : List Char → Option ℕ
  | [] => some 0
  | ch :: rest =>
    match hexDigitVal ch, hexVal rest with
    | some d, some v => some (d * 16 ^ rest.length + v)
    | _, _ => none

/-- reportlab `HexColor(s)`: accepts `#RRGGBB` (or `0xRRGGBB`) and raises
`ValueError` otherwise; `none` models the raise. -/
def parseHexColor (s : String) : Option Col :=
  let body : Option (List Char) :=
    match s.data with
    | '#' :: rest => some rest
    | '0' :: 'x' :: rest => some rest
    | '0' :: 'X' :: rest => some rest
    | _ => none
  match body with
  | none => none
  | some h =>
    if h.length = 6 then
      match hexVal h with
      | some v =>
        some (.rgb ((v / 65536 % 256 : ℕ) / 255) ((v / 256 % 256 : ℕ) / 255)
          ((v % 256 : ℕ) / 255))
      | none => none
    else none

/-- Python truthiness of an optional string (`None` and `""` are falsy). -/
def strT : Option String → Bool
  | none => false
  | some s => !(s == "")

/-- Python truthiness of an optional list/dict/bytes value. -/
def listT {α : Type} : Option (List α) → Bool
  | none => false
  | some l => !l.isEmpty

/-- Python `f"{float(v):.2f}"`. -/
def format2 (q : ℚ) : String :=
  let neg := q < 0
  let cents := (roundHalfEven ((if neg then -q else q) * 100)).toNat
  (if neg then "-" else "") ++ toString (cents / 100) ++ "." ++
    (if cents % 100 < 10 then "0" else "") ++ toString (cents % 100)

/-- Stable insertion keeping the list sorted by strictly descending value:
an element goes after every earlier element with a value at least as big. -/
def insertDesc (a : String × ℚ) : List (String × ℚ) → List (String × ℚ)
  | [] => [a]
  | b :: l => if b.2 < a.2 then a :: b :: l else b :: insertDesc a l

/-- Python `sorted(d.items(), key=lambda x: x[1], reverse=True)`: stable
descending sort by value. -/
def sortDesc (l : List (String × ℚ)) : List (String × ℚ) :=
  l.foldl (fun acc a => insertDesc a acc) []

/-- The external environment `build_eco_tips_pdf` runs in: the reportlab and
matplotlib import outcomes, whether matplotlib rendering raises, reportlab's
`simpleSplit` line breaker (text, font, size, max width), whether
`ImageReader` can decode given bytes, and `utils.format_emissions`. -/
structure ExtEnv where
  reportlabOk : Bool
  mplOk : Bool
  chartOk : Bool
  split : String → String → ℚ → ℚ → List String
  decode : List ℕ → Bool
  fmtEmissions : ℚ → String

/-- The `margins_cm` dictionary: keys may be absent. -/
structure MarginsCm where
  side : Option ℚ := none
  top : Option ℚ := none
  bottom : Option ℚ := none
deriving DecidableEq

/-- The arguments of `build_eco_tips_pdf`, in source order. Dictionaries are
association lists in insertion order; `bytes` is a byte list. -/
structure BuildArgs where
  summary_text : String
  tip_text : String
  emissions : ℚ
  date_str : String
  source_label : String
  per_activity : Option (List (String × ℚ))
  per_category : Option (List (String × ℚ))
  kpis : Option (List (String × String))
  logo_bytes : Option (List ℕ) := none
  title_text : Option String := none
  primary_color : Option String := none
  include_pie : Bool := true
  include_sparklines : Bool := true
  spark_data : Option (List (String × List ℚ)) := none
  footer_text : Option String := none
  margins_cm : Option MarginsCm := none
  text_hex : Option String := none
  chart_bg_hex : Option String := none

/-- `side_m = (margins_cm or {}).get("side", 2.0) * cm` (in cm units). -/
def sideM (a : BuildArgs) : ℚ := ((a.margins_cm.getD {}).side).getD 2

/-- `top_m = (margins_cm or {}).get("top", 2.0) * cm`. -/
def topM (a : BuildArgs) : ℚ := ((a.margins_cm.getD {}).top).getD 2

/-- `bottom_m = (margins_cm or {}).get("bottom", 1.8) * cm`. -/
def botM (a : BuildArgs) : ℚ := ((a.margins_cm.getD {}).bottom).getD 1.8

/-- `left = side_m`. -/
def leftM (a : BuildArgs) : ℚ := sideM a

/-- `right = width - side_m` with width = 29.7cm (landscape A4). -/
def rightM (a : BuildArgs) : ℚ := 29.7 - sideM a

/-- `y` reset after a page break: `height - top_m` with height = 21cm. -/
def resetY (a : BuildArgs) : ℚ := 21 - topM a

/-- `try: if text_hex: c.setFillColor(HexColor(text_hex)) except: pass`
(same shape is used for `primary_color` at the title). -/
def tryFillOpt (o : Option String) (c : Canvas) : Canvas :=
  if strT o then
    match parseHexColor (o.getD "") with
    | some col => setFill col c
    | none => c
  else c

/-- The fill color the body text ends up with after the reset block
following the header: the parsed `text_hex` if valid, else black. -/
def bodyCol (a : BuildArgs) : Col :=
  if strT a.text_hex then
    match parseHexColor (a.text_hex.getD "") with
    | some col => col
    | none => Col.black
  else Col.black

/-- The color-reset block after the header (lines 1300-1306): sets the body
color in every branch. -/
def bodyFillReset (a : BuildArgs) (c : Canvas) : Canvas := setFill (bodyCol a) c

/-- The `_draw_footer` closure: when `footer_text` is truthy, draw the footer
text and the page number on the bottom margin; fill falls back to black when
`text_hex` is invalid. -/
def drawFooter (a : BuildArgs) (c : Canvas) : Canvas :=
  if strT a.footer_text then
    let c := setFont "Helvetica" 9 c
    let c := if strT a.text_hex then
        match parseHexColor (a.text_hex.getD "") with
        | some col => setFill col c
        | none => setFill Col.black c
      else c
    let c := drawString (leftM a) (botM a - 0.4) (a.footer_text.getD "") c
    drawString (rightM a) (botM a - 0.4) ("Page " ++ toString c.pageNo) c
  else c

/-- The color reset performed right after `c.showPage()` inside `_show_page`:
re-establish `text_hex` (black on an invalid value, nothing on an absent
one -- the fresh page already has the black default). -/
def colorReset (a : BuildArgs) (c : Canvas) : Canvas :=
  if strT a.text_hex then
    match parseHexColor (a.text_hex.getD "") with
    | some col => setFill col c
    | none => setFill Col.black c
  else c

/-- The `_show_page` closure: footer, `showPage`, color reset. -/
def showPageH (a : BuildArgs) (c : Canvas) : Canvas :=
  colorReset a (showPage (drawFooter a c))

/-- `draw_title = title_text or "Sustainability Tracker — Eco Tips Summary"`. -/
def drawTitle (a : BuildArgs) : String :=
  if strT a.title_text then a.title_text.getD ""
  else "Sustainability Tracker — Eco Tips Summary"

/-- The header `try` block (lines 1270-1297): logo image with title, or the
fallback badge with title; an undecodable logo raises at `ImageReader` and
the outer `except` draws the bare title at the left margin. -/
def headerDraw (env : ExtEnv) (a : BuildArgs) (y : ℚ) (c : Canvas) : Canvas :=
  if listT a.logo_bytes then
    if env.decode (a.logo_bytes.getD []) then
      drawString (leftM a + 2.5) y (drawTitle a)
        (drawImage .logo (leftM a) (y - 0.5) 2.2 2.2 c)
    else
      drawString (leftM a) y (drawTitle a) c
  else
    let c1 :=
      if strT a.primary_color then
        match parseHexColor (a.primary_color.getD "") with
        | some col =>
          drawString (leftM a + 1.1) (y + 0.5) "ST"
            (setFont "Helvetica-Bold" 14 (setFill Col.white
              (roundRect (leftM a) (y - 0.5) 2.2 2.2 0.3 (setFill col c))))
        | none => c
      else
        drawString (leftM a + 1.1) (y + 0.5) "ST"
          (setFont "Helvetica-Bold" 14 (setFill Col.white
            (roundRect (leftM a) (y - 0.5) 2.2 2.2 0.3 c)))
    drawString (leftM a + 2.5) y (drawTitle a) (setFill Col.black c1)

/-- The meta line text (`fmt_emissions` is `utils.format_emissions`, an
external collaborator supplied through the environment). -/
def metaText (env : ExtEnv) (a : BuildArgs) : String :=
  "Date: " ++ a.date_str ++ "    Total: " ++ env.fmtEmissions a.emissions ++
    "    AI source: " ++ a.source_label

/-- Title, header, color reset and meta line (lines 1263-1312): produces the
canvas and cursor at the start of the KPI section. -/
def initState (env : ExtEnv) (a : BuildArgs) : Canvas × ℚ :=
  let c := tryFillOpt a.text_hex initialCanvas
  let y := resetY a
  let c := setFont "Helvetica-Bold" 19 c
  let c := tryFillOpt a.primary_color c
  let c := headerDraw env a y c
  let c := bodyFillReset a c
  let y := y - 0.4
  let c := setFont "Helvetica" 11 c
  let c := drawString (leftM a) y (metaText env a) c
  (c, y - 0.8)

/-- Word-wise title casing: upper-case the letter starting each space
separated word, lower-case the rest (Python `str.title` on letters-and
spaces input). -/
def titleCase : Bool → List Char → List Char
  | _, [] => []
  | atWord, ch :: rest =>
    if ch = ' ' then ch :: titleCase true rest
    else (if atWord then ch.toUpper else ch.toLower) :: titleCase false rest

/-- Python `label.replace('_', ' ').title()`: the single-character
underscore-to-space substitution followed by title casing, modelled
character-wise. -/
def kpiTitle (s : String) : String :=
  ⟨titleCase true (s.data.map (fun ch => if ch = '_' then ' ' else ch))⟩

/-- The KPI `for label in [...]` loop (lines 1320-1325): draw each present
metric, step the cursor, page-break when the cursor drops below
`bottom_m + 2cm`. -/
def kpiLoop (a : BuildArgs) (kp : List (String × String)) :
    List String → Canvas × ℚ → Canvas × ℚ
  | [], st => st
  | lbl :: rest, (c, y) =>
    match kp.lookup lbl with
    | none => kpiLoop a kp rest (c, y)
    | some v =>
      let c := drawString (leftM a) y ("- " ++ kpiTitle lbl ++ ": " ++ v) c
      let y := y - 0.48
      if y < botM a + 2 then kpiLoop a kp rest (showPageH a c, resetY a)
      else kpiLoop a kp rest (c, y)

/-- The KPI section (lines 1315-1325): skipped unless `kpis` is a dict. -/
def kpiSection (a : BuildArgs) (st : Canvas × ℚ) : Canvas × ℚ :=
  match a.kpis with
  | none => st
  | some kp =>
    let c := setFont "Helvetica-Bold" 12 st.1
    let c := drawString (leftM a) st.2 "Key metrics:" c
    let c := setFont "Helvetica" 10.5 c
    kpiLoop a kp ["today_total", "yesterday_total", "delta_pct", "streak_days"]
      (c, st.2 - 0.6)

/-- The sparkline grid loop (lines 1338-1367): place each category chart in a
3-column grid, breaking the page before a cell that would cross
`bottom_m + 1.5cm`; returns the canvas and the last `y_img`. -/
def sparkLoop (a : BuildArgs) :
    List (String × List ℚ) → Canvas → ℚ → ℚ → ℕ → ℚ → Canvas × ℚ
  | [], c, _, _, _, yimg => (c, yimg)
  | (cat, _) :: rest, c, x0, y0, i, _ =>
    let x := x0 + (i % 3 : ℕ) * (8 + 0.5)
    let yi := y0 - (i / 3 : ℕ) * (3 + 0.5)
    if yi - 3 < botM a + 1.5 then
      let c := showPageH a c
      let r2 := resetY a - 1
      let c := drawImage (.spark cat) (leftM a) (r2 - 3) 8 3 c
      sparkLoop a rest c (leftM a) r2 (i + 1) r2
    else
      let c := drawImage (.spark cat) x (yi - 3) 8 3 c
      sparkLoop a rest c x0 y0 (i + 1) yi

/-- The 7-day sparklines section (lines 1328-1370), a `try` block: heading,
then the grid; a matplotlib failure (`chartOk = false`) raises at the first
figure and the `except: pass` keeps the heading and the decremented cursor. -/
def sparkSection (env : ExtEnv) (a : BuildArgs) (st : Canvas × ℚ) : Canvas × ℚ :=
  if a.include_sparklines && env.mplOk && listT a.spark_data then
    let c := setFont "Helvetica-Bold" 12 st.1
    let c := drawString (leftM a) st.2 "7-day category trends:" c
    let y := st.2 - 0.6
    if env.chartOk then
      let r := sparkLoop a (a.spark_data.getD []) c (leftM a) y 0 y
      (r.1, r.2 - 3 - 0.8)
    else (c, y)
  else st

/-- The shared shape of the wrapped-text loops (summary lines 1377-1381, tip
lines 1389-1393, per-activity lines 1442-1446): draw the line at the cursor,
step down by `lh`, and only then page-break if the cursor fell below
`bottom_m + 2cm`. -/
def drawTextLoop (a : BuildArgs) (lh : ℚ) :
    List String → Canvas × ℚ → Canvas × ℚ
  | [], st => st
  | s :: rest, (c, y) =>
    let c := drawString (leftM a) y s c
    let y := y - lh
    if y < botM a + 2 then drawTextLoop a lh rest (showPageH a c, resetY a)
    else drawTextLoop a lh rest (c, y)

/-- The summary block (lines 1372-1381). -/
def summarySection (env : ExtEnv) (a : BuildArgs) (st : Canvas × ℚ) : Canvas × ℚ :=
  let c := setFont "Helvetica-Bold" 12.5 st.1
  let c := drawString (leftM a) st.2 "Today's Summary:" c
  let c := setFont "Helvetica" 11 c
  drawTextLoop a 0.5 (env.split a.summary_text "Helvetica" 11 (29.7 - 4))
    (c, st.2 - 0.6)

/-- The tip block (lines 1383-1393). -/
def tipSection (env : ExtEnv) (a : BuildArgs) (st : Canvas × ℚ) : Canvas × ℚ :=
  let y := st.2 - 0.2
  let c := setFont "Helvetica-Bold" 12.5 st.1
  let c := drawString (leftM a) y "Personalized Tip:" c
  let c := setFont "Helvetica" 11 c
  drawTextLoop a 0.5 (env.split a.tip_text "Helvetica" 11 (29.7 - 4))
    (c, y - 0.6)

/-- The per-category text loop (lines 1402-1406): draw the sorted entries,
stepping 0.45cm each, and stop (`break`) once the cursor drops below
`bottom_m + 6cm`; the remaining entries are silently omitted. -/
def drawCatLoop (a : BuildArgs) :
    List (String × ℚ) → Canvas × ℚ → Canvas × ℚ
  | [], st => st
  | kv :: rest, (c, y) =>
    let c := drawString (leftM a) y (kv.1 ++ ": " ++ format2 kv.2) c
    let y := y - 0.45
    if y < botM a + 6 then (c, y) else drawCatLoop a rest (c, y)

/-- The per-category section (lines 1395-1433): heading, sorted truncating
text list, then the pie image when `include_pie`, matplotlib is available and
does not raise, and the value sum is positive. -/
def categorySection (env : ExtEnv) (a : BuildArgs) (st : Canvas × ℚ) : Canvas × ℚ :=
  if listT a.per_category then
    let l := a.per_category.getD []
    let y := st.2 - 0.2
    let c := setFont "Helvetica-Bold" 12 st.1
    let c := drawString (leftM a) y "Per-category (kg CO₂):" c
    let c := setFont "Helvetica" 11 c
    let r := drawCatLoop a (sortDesc l) (c, y - 0.6)
    if a.include_pie && env.mplOk && env.chartOk &&
        decide (0 < (l.map Prod.snd).sum) then
      (drawImage .pie (rightM a - 10) (r.2 + 0.5) 10 7 r.1, r.2 - 7 - 0.5)
    else r
  else st

/-- The per-activity section (lines 1435-1446): heading, then the sorted
`key: value` lines through the page-breaking text loop (step 0.45cm). -/
def activitySection (a : BuildArgs) (st : Canvas × ℚ) : Canvas × ℚ :=
  if listT a.per_activity then
    let l := sortDesc (a.per_activity.getD [])
    let y := st.2 - 0.2
    let c := setFont "Helvetica-Bold" 12 st.1
    let c := drawString (leftM a) y "Per-activity emissions (kg CO₂):" c
    let c := setFont "Helvetica" 11 c
    drawTextLoop a 0.45 (l.map (fun kv => kv.1 ++ ": " ++ format2 kv.2))
      (c, y - 0.6)
  else st

/-- The closing `_show_page(); c.save()` (lines 1448-1452): commit the last
page and hand back the finished page list. -/
def finalizePdf (a : BuildArgs) (st : Canvas × ℚ) : List (List Item) :=
  (showPageH a st.1).pages

/-- app.py `build_eco_tips_pdf`: returns `(pdf_bytes, error_message)` --
here `(some pages, none)` on success, `(none, some msg)` when the
reportlab import fails. The drawing surface of the model is pure, so the outer
`except` branch for canvas failures is unreachable; all per-asset failures
(invalid hex colors, undecodable logo, matplotlib errors) are degraded
locally exactly as the source's inner `try` blocks do. -/
def build_eco_tips_pdf (env : ExtEnv) (a : BuildArgs) :
    Option (List (List Item)) × Option String :=
  if env.reportlabOk then
    (some (finalizePdf a (activitySection a (categorySection env a
      (tipSection env a (summarySection env a (sparkSection env a
        (kpiSection a (initState env a)))))))), none)
  else (none, some "ReportLab not available. Install with: pip install reportlab")

/-- One canvas state extends another when its committed items are those of
the other followed by some newly drawn items; every drawing operation of the
builder only appends. -/
def AppOnly (c c2 : Canvas) : Prop := ∃ t, c2.allItems = c.allItems ++ t

/-- No committed item of the canvas satisfies the predicate `p`; used to
show which sections can draw a pie image, a logo image or a badge
rectangle. -/
def ItemsFree (p : Item → Bool) (c : Canvas) : Prop :=
  ∀ it ∈ c.allItems, p it = false

/-- The canvas carries the default black fill and every committed text item
was drawn in black; the invariant maintained by a build whose theme colors
are all invalid. -/
def BlackOnly (c : Canvas) : Prop :=
  c.fill = Col.black ∧
    ∀ it ∈ c.allItems, it.isText = true → it.col = Col.black

/-- Agreement of two argument records on every field other than the two
tables (`per_activity`, `per_category`); used to state which inputs each
section of the builder actually reads. -/
structure EqExceptTables (a b : BuildArgs) : Prop where
  summary : a.summary_text = b.summary_text
  tip : a.tip_text = b.tip_text
  emis : a.emissions = b.emissions
  date : a.date_str = b.date_str
  src : a.source_label = b.source_label
  kpis : a.kpis = b.kpis
  logo : a.logo_bytes = b.logo_bytes
  title : a.title_text = b.title_text
  primary : a.primary_color = b.primary_color
  pie : a.include_pie = b.include_pie
  spark : a.include_sparklines = b.include_sparklines
  sparkData : a.spark_data = b.spark_data
  footer : a.footer_text = b.footer_text
  margins : a.margins_cm = b.margins_cm
  textHex : a.text_hex = b.text_hex
  chartBg : a.chart_bg_hex = b.chart_bg_hex

/- ===================== Concrete instances =====================
Fixed environments and argument records used to evaluate the builder at
specific inputs. Newline splitting is the behavior of reportlab
`simpleSplit` on text whose lines are each narrower than the wrap width (it
first splits on newlines, then word-wraps each line). -/

/-- Character-level newline splitting. -/
def splitNlChars : List Char → List (List Char)
  | [] => [[]]
  | ch :: rest =>
    if ch = '\n' then [] :: splitNlChars rest
    else
      match splitNlChars rest with
      | [] => [[ch]]
      | h :: t => (ch :: h) :: t

/-- Newline splitting of a string, the `simpleSplit` behavior used by the
concrete environments below. -/
def splitNl (s : String) : List String := (splitNlChars s.data).map String.mk

/-- An environment with reportlab present and matplotlib absent. -/
def envStd : ExtEnv :=
  { reportlabOk := true, mplOk := false, chartOk := false,
    split := fun t _ _ _ => splitNl t,
    decode := fun _ => false, fmtEmissions := fun _ => "10.00 kg" }

/-- An environment with both reportlab and matplotlib present and working. -/
def envMpl : ExtEnv :=
  { reportlabOk := true, mplOk := true, chartOk := true,
    split := fun t _ _ _ => splitNl t,
    decode := fun _ => true, fmtEmissions := fun _ => "10.00 kg" }

/-- Input whose 23 summary lines leave the cursor at 4.4cm before the
per-activity table, so the table's first entry triggers a page break and the
remaining entries continue on page 2. -/
def c1args : BuildArgs :=
  { summary_text := String.intercalate "\n" (List.replicate 23 "s"),
    tip_text := "t", emissions := 10, date_str := "2025-01-01",
    source_label := "AI", per_activity := some [("a", 4), ("b", 3), ("c", 2)],
    per_category := none, kpis := none, include_pie := false }

/-- Input that reaches the per-activity table with the cursor at 2.37cm:
the first table line lands at 1.77cm, below the 1.8cm bottom margin. -/
def c2args : BuildArgs :=
  { summary_text := String.intercalate "\n" (List.replicate 22 "s"),
    tip_text := "t", emissions := 10, date_str := "2025-01-01",
    source_label := "AI", per_activity := some [("a", 2)],
    per_category := some [("C", 1)], kpis := some [("today_total", "10")],
    include_pie := false }

/-- Input matching the spec scenario (three categories, no chart capability)
but with 14 summary lines, so the category list is entered at 8.1cm and is
truncated after its first entry. -/
def c5args : BuildArgs :=
  { summary_text := String.intercalate "\n" (List.replicate 14 "s"),
    tip_text := "t", emissions := 17, date_str := "2025-01-01",
    source_label := "AI", per_activity := none,
    per_category := some [("Energy", 12.5), ("Transport", 3), ("Meals", 1.5)],
    kpis := none, include_pie := true }

/-- Short input used to exhibit the amended per-category behavior on an
uncramped page (all three entries fit above the low-water mark). -/
def c5argsB : BuildArgs :=
  { summary_text := "sum", tip_text := "tip", emissions := 17,
    date_str := "2025-01-01", source_label := "AI", per_activity := none,
    per_category := some [("Energy", 12.5), ("Transport", 3), ("Meals", 1.5)],
    kpis := none, include_pie := false }

/-- Input with a pie chart: matplotlib available, positive category sum. -/
def c5argsPie : BuildArgs :=
  { summary_text := "sum", tip_text := "tip", emissions := 17,
    date_str := "2025-01-01", source_label := "AI", per_activity := none,
    per_category := some [("Energy", 12.5), ("Transport", 3), ("Meals", 1.5)],
    kpis := none, include_pie := true }

/-- Input carrying logo bytes that do not decode as an image. -/
def c6args : BuildArgs :=
  { summary_text := "sum", tip_text := "tip", emissions := 5,
    date_str := "2025-01-01", source_label := "AI", per_activity := none,
    per_category := none, kpis := none, logo_bytes := some [137, 1, 2] }

/-- Input used for the determinism witness. -/
def c7args : BuildArgs :=
  { summary_text := "sum", tip_text := "tip", emissions := 5,
    date_str := "2025-01-01", source_label := "AI",
    per_activity := some [("meat_kg", 54)], per_category := some [("Meals", 54)],
    kpis := some [("today_total", "54.00")] }

/-- Input with all three theme colors present but invalid hex strings. -/
def c4args : BuildArgs :=
  { summary_text := "sum", tip_text := "tip", emissions := 5,
    date_str := "2025-01-01", source_label := "AI", per_activity := none,
    per_category := some [("Meals", 54)], kpis := none,
    primary_color := some "not-a-color", text_hex := some "zzz",
    chart_bg_hex := some "#12345" }

/-- Input used for the per-activity table content witness. -/
def c1argsB : BuildArgs :=
  { summary_text := "sum", tip_text := "tip", emissions := 5,
    date_str := "2025-01-01", source_label := "AI",
    per_activity := some [("bus_km", 1), ("meat_kg", 54)],
    per_category := none, kpis := none }

/-- Emission factor table used in the `compute_category_emissions` witness. -/
def factorsW : String → Option ℚ :=
  fun k => if k = "meat_kg" then some 27 else if k = "bus_km" then some (1/10) else none

/-- Activity data used in the `compute_category_emissions` witness. -/
def dataW : List (String × Option ℚ) := [("meat_kg", some 2), ("bus_km", none)]

/-- The same data with an extra key outside every category. -/
def dataW2 : List (String × Option ℚ) :=
  [("meat_kg", some 2), ("bus_km", none), ("unrelated_key", some 99)]

/- ===================== Theorems ===================== -/

/-- Helper: the layout-relevant fields of the two margin helpers agree. -/
theorem sideM_ext {a b : BuildArgs} (h : EqExceptTables a b) :
    sideM a = sideM b := by unfold sideM; rw [h.margins]

/-- Helper: the top margin only reads `margins_cm`. -/
theorem topM_ext {a b : BuildArgs} (h : EqExceptTables a b) :
    topM a = topM b := by unfold topM; rw [h.margins]

/-- Helper: the bottom margin only reads `margins_cm`. -/
theorem botM_ext {a b : BuildArgs} (h : EqExceptTables a b) :
    botM a = botM b := by unfold botM; rw [h.margins]

/-- Helper: the left margin only reads `margins_cm`. -/
theorem leftM_ext {a b : BuildArgs} (h : EqExceptTables a b) :
    leftM a = leftM b := by unfold leftM; exact sideM_ext h

/-- Helper: the right margin only reads `margins_cm`. -/
theorem rightM_ext {a b : BuildArgs} (h : EqExceptTables a b) :
    rightM a = rightM b := by unfold rightM; rw [sideM_ext h]

/-- Helper: the page-top cursor reset only reads `margins_cm`. -/
theorem resetY_ext {a b : BuildArgs} (h : EqExceptTables a b) :
    resetY a = resetY b := by unfold resetY; rw [topM_ext h]

/-- Helper: the post-page-break color reset only reads `text_hex`. -/
theorem colorReset_ext {a b : BuildArgs} (h : EqExceptTables a b) (c : Canvas) :
    colorReset a c = colorReset b c := by unfold colorReset; rw [h.textHex]

/-- Helper: the footer only reads `footer_text`, `text_hex` and margins. -/
theorem drawFooter_ext {a b : BuildArgs} (h : EqExceptTables a b) (c : Canvas) :
    drawFooter a c = drawFooter b c := by
  simp only [drawFooter, h.footer, h.textHex, leftM_ext h, rightM_ext h, botM_ext h]

/-- Helper: `_show_page` ignores the two table arguments. -/
theorem showPageH_ext {a b : BuildArgs} (h : EqExceptTables a b) (c : Canvas) :
    showPageH a c = showPageH b c := by
  unfold showPageH
  rw [drawFooter_ext h, colorReset_ext h]

/-- Helper: the title string ignores the two table arguments. -/
theorem drawTitle_ext {a b : BuildArgs} (h : EqExceptTables a b) :
    drawTitle a = drawTitle b := by unfold drawTitle; rw [h.title]

/-- Helper: the meta line ignores the two table arguments. -/
theorem metaText_ext {env : ExtEnv} {a b : BuildArgs} (h : EqExceptTables a b) :
    metaText env a = metaText env b := by
  unfold metaText
  rw [h.date, h.emis, h.src]

/-- Helper: the header block ignores the two table arguments. -/
theorem headerDraw_ext {env : ExtEnv} {a b : BuildArgs} (h : EqExceptTables a b)
    (y : ℚ) (c : Canvas) :
    headerDraw env a y c = headerDraw env b y c := by
  simp only [headerDraw, h.logo, h.primary, drawTitle_ext h, leftM_ext h]

/-- Helper: the body color reset ignores the two table arguments. -/
theorem bodyFillReset_ext {a b : BuildArgs} (h : EqExceptTables a b) (c : Canvas) :
    bodyFillReset a c = bodyFillReset b c := by
  simp only [bodyFillReset, bodyCol, h.textHex]

/-- Helper: the header and meta line ignore the two table arguments. -/
theorem initState_ext {env : ExtEnv} {a b : BuildArgs} (h : EqExceptTables a b) :
    initState env a = initState env b := by
  simp only [initState, h.textHex, resetY_ext h, h.primary, headerDraw_ext h,
    bodyFillReset_ext h, leftM_ext h, metaText_ext h]

/-- Helper: the KPI loop ignores the two table arguments. -/
theorem kpiLoop_ext {a b : BuildArgs} (h : EqExceptTables a b)
    (kp : List (String × String)) (lbls : List String) (st : Canvas × ℚ) :
    kpiLoop a kp lbls st = kpiLoop b kp lbls st := by
  induction lbls generalizing st with
  | nil => rfl
  | cons lbl rest ih =>
    obtain ⟨c, y⟩ := st
    simp only [kpiLoop, leftM_ext h, botM_ext h, showPageH_ext h, resetY_ext h, ih]

/-- Helper: the KPI section ignores the two table arguments. -/
theorem kpiSection_ext {a b : BuildArgs} (h : EqExceptTables a b)
    (st : Canvas × ℚ) : kpiSection a st = kpiSection b st := by
  simp only [kpiSection, h.kpis, leftM_ext h, kpiLoop_ext h]

/-- Helper: the sparkline loop ignores the two table arguments. -/
theorem sparkLoop_ext {a b : BuildArgs} (h : EqExceptTables a b)
    (l : List (String × List ℚ)) (c : Canvas) (x0 y0 : ℚ) (i : ℕ) (yimg : ℚ) :
    sparkLoop a l c x0 y0 i yimg = sparkLoop b l c x0 y0 i yimg := by
  induction l generalizing c x0 y0 i yimg with
  | nil => rfl
  | cons kv rest ih =>
    simp only [sparkLoop, leftM_ext h, botM_ext h, resetY_ext h, showPageH_ext h, ih]

/-- Helper: the sparkline section ignores the two table arguments. -/
theorem sparkSection_ext {env : ExtEnv} {a b : BuildArgs} (h : EqExceptTables a b)
    (st : Canvas × ℚ) : sparkSection env a st = sparkSection env b st := by
  simp only [sparkSection, h.spark, h.sparkData, leftM_ext h, resetY_ext h,
    sparkLoop_ext h]

/-- Helper: the wrapped-text loop ignores the two table arguments. -/
theorem drawTextLoop_ext {a b : BuildArgs} (h : EqExceptTables a b) (lh : ℚ)
    (lines : List String) (st : Canvas × ℚ) :
    drawTextLoop a lh lines st = drawTextLoop b lh lines st := by
  induction lines generalizing st with
  | nil => rfl
  | cons s rest ih =>
    obtain ⟨c, y⟩ := st
    simp only [drawTextLoop, leftM_ext h, botM_ext h, showPageH_ext h, resetY_ext h, ih]

/-- Helper: the summary section ignores the two table arguments. -/
theorem summarySection_ext {env : ExtEnv} {a b : BuildArgs}
    (h : EqExceptTables a b) (st : Canvas × ℚ) :
    summarySection env a st = summarySection env b st := by
  simp only [summarySection, h.summary, leftM_ext h, drawTextLoop_ext h]

/-- Helper: the tip section ignores the two table arguments. -/
theorem tipSection_ext {env : ExtEnv} {a b : BuildArgs}
    (h : EqExceptTables a b) (st : Canvas × ℚ) :
    tipSection env a st = tipSection env b st := by
  simp only [tipSection, h.tip, leftM_ext h, drawTextLoop_ext h]

/-- Helper: the per-category text loop ignores the two table arguments. -/
theorem drawCatLoop_ext {a b : BuildArgs} (h : EqExceptTables a b)
    (l : List (String × ℚ)) (st : Canvas × ℚ) :
    drawCatLoop a l st = drawCatLoop b l st := by
  induction l generalizing st with
  | nil => rfl
  | cons kv rest ih =>
    obtain ⟨c, y⟩ := st
    simp only [drawCatLoop, leftM_ext h, botM_ext h, ih]

/-- Helper: the per-category section reads only `per_category` beyond the
layout fields. -/
theorem categorySection_ext {env : ExtEnv} {a b : BuildArgs}
    (h : EqExceptTables a b) (hpc : a.per_category = b.per_category)
    (st : Canvas × ℚ) : categorySection env a st = categorySection env b st := by
  simp only [categorySection, hpc, h.pie, leftM_ext h, rightM_ext h,
    drawCatLoop_ext h]

/-- Helper: the per-activity section reads only `per_activity` beyond the
layout fields. -/
theorem activitySection_ext {a b : BuildArgs} (h : EqExceptTables a b)
    (hpa : a.per_activity = b.per_activity) (st : Canvas × ℚ) :
    activitySection a st = activitySection b st := by
  simp only [activitySection, hpa, leftM_ext h, drawTextLoop_ext h]

/-- Helper: the closing page flush ignores the two table arguments. -/
theorem finalizePdf_ext {a b : BuildArgs} (h : EqExceptTables a b)
    (st : Canvas × ℚ) : finalizePdf a st = finalizePdf b st := by
  simp only [finalizePdf, showPageH_ext h]

/-- Helper: with a falsy per-activity value the section is the identity. -/
theorem activitySection_skip (a : BuildArgs) (st : Canvas × ℚ)
    (h : listT a.per_activity = false) : activitySection a st = st := by
  unfold activitySection
  rw [h]
  rfl

/-- Helper: `drawString` appends exactly one text item. -/
theorem allItems_drawString (x y : ℚ) (s : String) (c : Canvas) :
    (drawString x y s c).allItems =
      c.allItems ++ [Item.text x y c.font c.fontSize c.fill s] := by
  simp [Canvas.allItems, drawString]

/-- Helper: `drawImage` appends exactly one image item. -/
theorem allItems_drawImage (src : ImgSrc) (x y w h : ℚ) (c : Canvas) :
    (drawImage src x y w h c).allItems = c.allItems ++ [Item.image src x y w h] := by
  simp [Canvas.allItems, drawImage]

/-- Helper: `roundRect` appends exactly one rectangle item. -/
theorem allItems_roundRect (x y w h rad : ℚ) (c : Canvas) :
    (roundRect x y w h rad c).allItems =
      c.allItems ++ [Item.rect x y w h rad c.fill] := by
  simp [Canvas.allItems, roundRect]

/-- Helper: `setFont` draws nothing. -/
theorem allItems_setFont (f : String) (sz : ℚ) (c : Canvas) :
    (setFont f sz c).allItems = c.allItems := rfl

/-- Helper: `setFill` draws nothing. -/
theorem allItems_setFill (col : Col) (c : Canvas) :
    (setFill col c).allItems = c.allItems := rfl

/-- Helper: `showPage` moves the current page into the page list without
changing the committed items. -/
theorem allItems_showPage (c : Canvas) : (showPage c).allItems = c.allItems := by
  simp [Canvas.allItems, showPage]

/-- Helper: the color reset draws nothing. -/
theorem allItems_colorReset (a : BuildArgs) (c : Canvas) :
    (colorReset a c).allItems = c.allItems := by
  unfold colorReset
  split
  · split <;> rfl
  · rfl

/-- Helper: the color reset does not touch the committed pages. -/
theorem pages_colorReset (a : BuildArgs) (c : Canvas) :
    (colorReset a c).pages = c.pages := by
  unfold colorReset
  split
  · split <;> rfl
  · rfl

/-- Helper: without a footer, `_draw_footer` draws nothing. -/
theorem allItems_drawFooter_none (a : BuildArgs) (c : Canvas)
    (hf : a.footer_text = none) : (drawFooter a c).allItems = c.allItems := by
  simp [drawFooter, hf, strT]

/-- Helper: without a footer, `_show_page` commits items unchanged. -/
theorem allItems_showPageH_none (a : BuildArgs) (c : Canvas)
    (hf : a.footer_text = none) : (showPageH a c).allItems = c.allItems := by
  unfold showPageH
  rw [allItems_colorReset, allItems_showPage, allItems_drawFooter_none a c hf]

/-- Helper: extension of the drawn-item list is reflexive. -/
theorem AppOnly.rfl {c : Canvas} : AppOnly c c := ⟨[], by simp⟩

/-- Helper: extension of the drawn-item list composes. -/
theorem AppOnly.trans {c1 c2 c3 : Canvas} (h1 : AppOnly c1 c2)
    (h2 : AppOnly c2 c3) : AppOnly c1 c3 := by
  obtain ⟨t1, ht1⟩ := h1
  obtain ⟨t2, ht2⟩ := h2
  exact ⟨t1 ++ t2, by rw [ht2, ht1, List.append_assoc]⟩

/-- Helper: `drawString` only appends. -/
theorem appOnly_drawString (x y : ℚ) (s : String) (c : Canvas) :
    AppOnly c (drawString x y s c) := ⟨_, allItems_drawString x y s c⟩

/-- Helper: `drawImage` only appends. -/
theorem appOnly_drawImage (src : ImgSrc) (x y w h : ℚ) (c : Canvas) :
    AppOnly c (drawImage src x y w h c) := ⟨_, allItems_drawImage src x y w h c⟩

/-- Helper: `roundRect` only appends. -/
theorem appOnly_roundRect (x y w h rad : ℚ) (c : Canvas) :
    AppOnly c (roundRect x y w h rad c) := ⟨_, allItems_roundRect x y w h rad c⟩

/-- Helper: `setFont` only appends (nothing). -/
theorem appOnly_setFont (f : String) (sz : ℚ) (c : Canvas) :
    AppOnly c (setFont f sz c) := ⟨[], by simp [allItems_setFont]⟩

/-- Helper: `setFill` only appends (nothing). -/
theorem appOnly_setFill (col : Col) (c : Canvas) :
    AppOnly c (setFill col c) := ⟨[], by simp [allItems_setFill]⟩

/-- Helper: `showPage` only appends (nothing). -/
theorem appOnly_showPage (c : Canvas) : AppOnly c (showPage c) :=
  ⟨[], by simp [allItems_showPage]⟩

/-- Helper: the color reset only appends (nothing). -/
theorem appOnly_colorReset (a : BuildArgs) (c : Canvas) :
    AppOnly c (colorReset a c) := ⟨[], by simp [allItems_colorReset]⟩

/-- Helper: `_draw_footer` only appends items. -/
theorem drawFooter_append (a : BuildArgs) (c : Canvas) :
    AppOnly c (drawFooter a c) := by
  unfold drawFooter
  split
  · split
    · split <;>
        exact ((appOnly_setFont _ _ _).trans (appOnly_setFill _ _)).trans
          ((appOnly_drawString _ _ _ _).trans (appOnly_drawString _ _ _ _))
    · exact (appOnly_setFont _ _ _).trans
        ((appOnly_drawString _ _ _ _).trans (appOnly_drawString _ _ _ _))
  · exact .rfl

/-- Helper: `_show_page` only appends items. -/
theorem showPageH_append (a : BuildArgs) (c : Canvas) :
    AppOnly c (showPageH a c) :=
  (drawFooter_append a c).trans
    ((appOnly_showPage _).trans (appOnly_colorReset a _))

/-- Helper: the wrapped-text loop only appends items. -/
theorem drawTextLoop_append (a : BuildArgs) (lh : ℚ) (lines : List String)
    (st : Canvas × ℚ) : AppOnly st.1 (drawTextLoop a lh lines st).1 := by
  induction lines generalizing st with
  | nil => exact .rfl
  | cons s rest ih =>
    obtain ⟨c, y⟩ := st
    simp only [drawTextLoop]
    split
    · exact ((appOnly_drawString _ _ _ _).trans (showPageH_append a _)).trans
        (ih (showPageH a (drawString (leftM a) y s c), resetY a))
    · exact (appOnly_drawString _ _ _ _).trans
        (ih (drawString (leftM a) y s c, y - lh))

/-- Helper: the KPI loop only appends items. -/
theorem kpiLoop_append (a : BuildArgs) (kp : List (String × String))
    (lbls : List String) (st : Canvas × ℚ) :
    AppOnly st.1 (kpiLoop a kp lbls st).1 := by
  induction lbls generalizing st with
  | nil => exact .rfl
  | cons lbl rest ih =>
    obtain ⟨c, y⟩ := st
    rcases hv : kp.lookup lbl with _ | v <;> simp only [kpiLoop, hv]
    · exact ih (c, y)
    · split
      · exact ((appOnly_drawString _ _ _ _).trans (showPageH_append a _)).trans
          (ih _)
      · exact (appOnly_drawString _ _ _ _).trans (ih _)

/-- Helper: the sparkline loop only appends items. -/
theorem sparkLoop_append (a : BuildArgs) (l : List (String × List ℚ))
    (c : Canvas) (x0 y0 : ℚ) (i : ℕ) (yimg : ℚ) :
    AppOnly c (sparkLoop a l c x0 y0 i yimg).1 := by
  induction l generalizing c x0 y0 i yimg with
  | nil => exact .rfl
  | cons kv rest ih =>
    simp only [sparkLoop]
    split
    · exact ((showPageH_append a c).trans (appOnly_drawImage _ _ _ _ _ _)).trans
        (ih _ _ _ _ _)
    · exact (appOnly_drawImage _ _ _ _ _ _).trans (ih _ _ _ _ _)

/-- Helper: the per-category text loop only appends items. -/
theorem drawCatLoop_append (a : BuildArgs) (l : List (String × ℚ))
    (st : Canvas × ℚ) : AppOnly st.1 (drawCatLoop a l st).1 := by
  induction l generalizing st with
  | nil => exact .rfl
  | cons kv rest ih =>
    obtain ⟨c, y⟩ := st
    simp only [drawCatLoop]
    split
    · exact appOnly_drawString _ _ _ _
    · exact (appOnly_drawString _ _ _ _).trans
        (ih (drawString (leftM a) y (kv.1 ++ ": " ++ format2 kv.2) c, y - 0.45))

/-- Helper: the KPI section only appends items. -/
theorem kpiSection_append (a : BuildArgs) (st : Canvas × ℚ) :
    AppOnly st.1 (kpiSection a st).1 := by
  unfold kpiSection
  cases a.kpis with
  | none => exact .rfl
  | some kp =>
    exact ((appOnly_setFont _ _ _).trans
      ((appOnly_drawString _ _ _ _).trans (appOnly_setFont _ _ _))).trans
      (kpiLoop_append a kp _ _)

/-- Helper: the sparkline section only appends items. -/
theorem sparkSection_append (env : ExtEnv) (a : BuildArgs) (st : Canvas × ℚ) :
    AppOnly st.1 (sparkSection env a st).1 := by
  unfold sparkSection
  split
  · split
    · exact ((appOnly_setFont _ _ _).trans (appOnly_drawString _ _ _ _)).trans
        (sparkLoop_append a _ _ _ _ _ _)
    · exact (appOnly_setFont _ _ _).trans (appOnly_drawString _ _ _ _)
  · exact .rfl

/-- Helper: the summary section only appends items. -/
theorem summarySection_append (env : ExtEnv) (a : BuildArgs) (st : Canvas × ℚ) :
    AppOnly st.1 (summarySection env a st).1 := by
  unfold summarySection
  exact ((appOnly_setFont _ _ _).trans
    ((appOnly_drawString _ _ _ _).trans (appOnly_setFont _ _ _))).trans
    (drawTextLoop_append a 0.5 _ _)

/-- Helper: the tip section only appends items. -/
theorem tipSection_append (env : ExtEnv) (a : BuildArgs) (st : Canvas × ℚ) :
    AppOnly st.1 (tipSection env a st).1 := by
  unfold tipSection
  exact ((appOnly_setFont _ _ _).trans
    ((appOnly_drawString _ _ _ _).trans (appOnly_setFont _ _ _))).trans
    (drawTextLoop_append a 0.5 _ _)

/-- Helper: the per-category section only appends items. -/
theorem categorySection_append (env : ExtEnv) (a : BuildArgs) (st : Canvas × ℚ) :
    AppOnly st.1 (categorySection env a st).1 := by
  simp only [categorySection]
  split
  · split
    · exact (((appOnly_setFont _ _ _).trans
        ((appOnly_drawString _ _ _ _).trans (appOnly_setFont _ _ _))).trans
        (drawCatLoop_append a _ _)).trans (appOnly_drawImage _ _ _ _ _ _)
    · exact ((appOnly_setFont _ _ _).trans
        ((appOnly_drawString _ _ _ _).trans (appOnly_setFont _ _ _))).trans
        (drawCatLoop_append a _ _)
  · exact .rfl

/-- Helper: the per-activity section only appends items. -/
theorem activitySection_append (a : BuildArgs) (st : Canvas × ℚ) :
    AppOnly st.1 (activitySection a st).1 := by
  unfold activitySection
  split
  · exact ((appOnly_setFont _ _ _).trans
      ((appOnly_drawString _ _ _ _).trans (appOnly_setFont _ _ _))).trans
      (drawTextLoop_append a 0.45 _ _)
  · exact .rfl

/-- Helper: the items of the finished document are the committed items of
the final `_show_page`, which only appends the footer to the items drawn so
far. -/
theorem finalizePdf_flatten_append (a : BuildArgs) (st : Canvas × ℚ) :
    ∃ t, (finalizePdf a st).flatten = st.1.allItems ++ t := by
  obtain ⟨t, ht⟩ := drawFooter_append a st.1
  refine ⟨t, ?_⟩
  unfold finalizePdf showPageH
  rw [pages_colorReset]
  show ((drawFooter a st.1).pages ++ [(drawFooter a st.1).cur]).flatten = _
  rw [List.flatten_append]
  simpa [Canvas.allItems] using ht

/-- Helper: without a footer the finished document's items are exactly the
items drawn by the sections. -/
theorem finalizePdf_flatten_none (a : BuildArgs) (st : Canvas × ℚ)
    (hf : a.footer_text = none) :
    (finalizePdf a st).flatten = st.1.allItems := by
  unfold finalizePdf showPageH
  rw [pages_colorReset]
  show ((drawFooter a st.1).pages ++ [(drawFooter a st.1).cur]).flatten = _
  rw [List.flatten_append]
  have := allItems_drawFooter_none a st.1 hf
  simpa [Canvas.allItems] using this

/-- Helper: the strings drawn by the wrapped-text loop, without a footer,
are exactly its input lines, in order. -/
theorem drawTextLoop_str (a : BuildArgs) (hf : a.footer_text = none) (lh : ℚ)
    (lines : List String) (st : Canvas × ℚ) :
    ((drawTextLoop a lh lines st).1.allItems).map Item.str =
      (st.1.allItems).map Item.str ++ lines := by
  induction lines generalizing st with
  | nil => simp [drawTextLoop]
  | cons s rest ih =>
    obtain ⟨c, y⟩ := st
    simp only [drawTextLoop]
    split
    · rw [ih (showPageH a (drawString (leftM a) y s c), resetY a),
        allItems_showPageH_none _ _ hf, allItems_drawString]
      simp [Item.str]
    · rw [ih (drawString (leftM a) y s c, y - lh), allItems_drawString]
      simp [Item.str]

/-- Helper: the strings drawn by the truncating per-category loop form a
nonempty initial segment of its input entries. -/
theorem drawCatLoop_str (a : BuildArgs) (l : List (String × ℚ))
    (st : Canvas × ℚ) (hne : l ≠ []) :
    ∃ k, 1 ≤ k ∧ k ≤ l.length ∧
      ((drawCatLoop a l st).1.allItems).map Item.str =
        (st.1.allItems).map Item.str ++
          (l.map (fun kv => kv.1 ++ ": " ++ format2 kv.2)).take k := by
  induction l generalizing st with
  | nil => exact absurd rfl hne
  | cons kv rest ih =>
    obtain ⟨c, y⟩ := st
    simp only [drawCatLoop]
    split
    · exact ⟨1, le_rfl, by simp, by rw [allItems_drawString]; simp [Item.str]⟩
    · cases rest with
      | nil =>
        exact ⟨1, le_rfl, by simp, by
          simp only [drawCatLoop]
          rw [allItems_drawString]; simp [Item.str]⟩
      | cons kv2 rest2 =>
        obtain ⟨k, hk1, hk2, hk3⟩ := ih
          (drawString (leftM a) y (kv.1 ++ ": " ++ format2 kv.2) c, y - 0.45)
          (by simp)
        refine ⟨k + 1, by omega, by simpa using hk2, ?_⟩
        rw [hk3, allItems_drawString]
        simp [Item.str]

/-- Helper: every line the wrapped-text loop draws at a position that was
checked (that is, every line but the first of its block) sits at or above
`bottom_m + 2cm`, provided that holds of the incoming cursor. -/
theorem drawTextLoop_yPos_all (a : BuildArgs) (hf : a.footer_text = none)
    (hgr : botM a + 2 ≤ resetY a) (lh : ℚ) (lines : List String)
    (st : Canvas × ℚ) (hy : botM a + 2 ≤ st.2) :
    ∀ it ∈ ((drawTextLoop a lh lines st).1.allItems).drop
      (st.1.allItems.length), botM a + 2 ≤ it.yPos := by
  induction lines generalizing st with
  | nil =>
    intro it hit
    simp [drawTextLoop] at hit
  | cons s rest ih =>
    obtain ⟨c, y⟩ := st
    dsimp only at hy ⊢
    simp only [drawTextLoop]
    split
    · rename_i hcmp
      obtain ⟨t, htl⟩ := drawTextLoop_append a lh rest
        (showPageH a (drawString (leftM a) y s c), resetY a)
      have hlen : (showPageH a (drawString (leftM a) y s c)).allItems
          = c.allItems ++ [Item.text (leftM a) y c.font c.fontSize c.fill s] := by
        rw [allItems_showPageH_none _ _ hf, allItems_drawString]
      intro it hit
      rw [htl, hlen, List.append_assoc, List.drop_left] at hit
      rcases List.mem_append.mp hit with hit1 | hit2
      · rw [List.mem_singleton.mp hit1]
        exact hy
      · refine ih (showPageH a (drawString (leftM a) y s c), resetY a) hgr it ?_
        dsimp only
        rw [htl, hlen, List.drop_left]
        exact hit2
    · rename_i hcmp
      obtain ⟨t, htl⟩ := drawTextLoop_append a lh rest
        (drawString (leftM a) y s c, y - lh)
      have hlen : (drawString (leftM a) y s c).allItems
          = c.allItems ++ [Item.text (leftM a) y c.font c.fontSize c.fill s] :=
        allItems_drawString _ _ _ _
      intro it hit
      rw [htl, hlen, List.append_assoc, List.drop_left] at hit
      rcases List.mem_append.mp hit with hit1 | hit2
      · rw [List.mem_singleton.mp hit1]
        exact hy
      · refine ih (drawString (leftM a) y s c, y - lh) (le_of_not_lt hcmp) it ?_
        dsimp only
        rw [htl, hlen, List.drop_left]
        exact hit2

/-- Helper: the characterization of `streakLoop`, proved by induction on a
bound for the number of logged days at or before `d`. -/
theorem streakLoop_spec (n : ℕ) (s : Finset ℤ) (d : ℤ)
    (hn : (s.filter (fun x => x ≤ d)).card ≤ n) :
    (∀ i : ℕ, i < streakLoop s d → (d - i) ∈ s) ∧
      (d - (streakLoop s d : ℤ)) ∉ s := by
  induction n generalizing d with
  | zero =>
    have hd : d ∉ s := by
      intro hd
      have : d ∈ s.filter (fun x => x ≤ d) := by simp [hd]
      have := Finset.card_pos.mpr ⟨d, this⟩
      omega
    rw [streakLoop, dif_neg hd]
    exact ⟨fun i hi => absurd hi (by omega), by simpa using hd⟩
  | succ n ih =>
    by_cases hd : d ∈ s
    · have hlt : (s.filter (fun x => x ≤ d - 1)).card <
          (s.filter (fun x => x ≤ d)).card := by
        apply Finset.card_lt_card
        rw [Finset.ssubset_iff_of_subset
          (Finset.monotone_filter_right s (by intro x hx; omega))]
        exact ⟨d, by simp [hd], by simp⟩
      obtain ⟨h1, h2⟩ := ih (d - 1) (by omega)
      rw [streakLoop, dif_pos hd]
      refine ⟨fun i hi => ?_, ?_⟩
      · match i with
        | 0 => simpa using hd
        | j + 1 =>
          have := h1 j (by omega)
          have heq : d - ((j + 1 : ℕ) : ℤ) = d - 1 - (j : ℕ) := by push_cast; ring
          rwa [heq]
      · have heq : d - ((streakLoop s (d - 1) + 1 : ℕ) : ℤ)
            = d - 1 - (streakLoop s (d - 1) : ℕ) := by push_cast; ring
        rwa [heq]
    · rw [streakLoop, dif_neg hd]
      exact ⟨fun i hi => absurd hi (by omega), by simpa using hd⟩

/-- Helper: full form of the finished document's items: everything drawn by
the sections plus the final footer. -/
theorem finalizePdf_flatten (a : BuildArgs) (st : Canvas × ℚ) :
    (finalizePdf a st).flatten = (drawFooter a st.1).allItems := by
  unfold finalizePdf showPageH
  rw [pages_colorReset]
  show ((drawFooter a st.1).pages ++ [(drawFooter a st.1).cur]).flatten = _
  rw [List.flatten_append]
  simp [Canvas.allItems]

/-- Helper: membership in the committed items is preserved by extension. -/
theorem mem_of_appOnly {c c2 : Canvas} (h : AppOnly c c2) {it : Item}
    (hit : it ∈ c.allItems) : it ∈ c2.allItems := by
  obtain ⟨t, ht⟩ := h
  rw [ht]
  exact List.mem_append_left t hit

/-- Helper: with a falsy per-category value the section is the identity. -/
theorem categorySection_skip (env : ExtEnv) (a : BuildArgs) (st : Canvas × ℚ)
    (h : listT a.per_category = false) : categorySection env a st = st := by
  unfold categorySection
  rw [h]
  rfl

/-- Helper: stable descending insertion grows the length by one. -/
theorem insertDesc_length (a : String × ℚ) (l : List (String × ℚ)) :
    (insertDesc a l).length = l.length + 1 := by
  induction l with
  | nil => rfl
  | cons b t ih =>
    unfold insertDesc
    split
    · rfl
    · simp [ih]

/-- Helper: the descending sort keeps the number of entries. -/
theorem sortDesc_length (l : List (String × ℚ)) :
    (sortDesc l).length = l.length := by
  have aux : ∀ (m : List (String × ℚ)) (acc : List (String × ℚ)),
      (m.foldl (fun acc a => insertDesc a acc) acc).length =
        acc.length + m.length := by
    intro m
    induction m with
    | nil => intro acc; simp
    | cons x xs ih =>
      intro acc
      rw [List.foldl_cons, ih, insertDesc_length]
      simp
      omega
  unfold sortDesc
  rw [aux l []]
  simp

/-- Helper: items free of `p` stay free under an item-preserving step. -/
theorem free_of_eq {p : Item → Bool} {c c2 : Canvas}
    (h : c2.allItems = c.allItems) (hc : ItemsFree p c) : ItemsFree p c2 :=
  fun it hit => hc it (h ▸ hit)

/-- Helper: `drawString` preserves `p`-freedom when `p` ignores text. -/
theorem free_drawString {p : Item → Bool}
    (hpT : ∀ x y f sz col s, p (Item.text x y f sz col s) = false)
    {x y : ℚ} {s : String} {c : Canvas} (hc : ItemsFree p c) :
    ItemsFree p (drawString x y s c) := by
  intro it hit
  rw [allItems_drawString] at hit
  rcases List.mem_append.mp hit with h | h
  · exact hc it h
  · rw [List.mem_singleton.mp h]
    exact hpT _ _ _ _ _ _

/-- Helper: `drawImage` preserves `p`-freedom when `p` rejects the image. -/
theorem free_drawImage {p : Item → Bool} {src : ImgSrc} {x y w h : ℚ}
    (hpI : p (Item.image src x y w h) = false) {c : Canvas}
    (hc : ItemsFree p c) : ItemsFree p (drawImage src x y w h c) := by
  intro it hit
  rw [allItems_drawImage] at hit
  rcases List.mem_append.mp hit with h2 | h2
  · exact hc it h2
  · rw [List.mem_singleton.mp h2]
    exact hpI

/-- Helper: `roundRect` preserves `p`-freedom when `p` ignores rectangles. -/
theorem free_roundRect {p : Item → Bool}
    (hpR : ∀ x y w h rad col, p (Item.rect x y w h rad col) = false)
    {x y w h rad : ℚ} {c : Canvas} (hc : ItemsFree p c) :
    ItemsFree p (roundRect x y w h rad c) := by
  intro it hit
  rw [allItems_roundRect] at hit
  rcases List.mem_append.mp hit with h2 | h2
  · exact hc it h2
  · rw [List.mem_singleton.mp h2]
    exact hpR _ _ _ _ _ _

/-- Helper: `tryFillOpt` draws nothing. -/
theorem allItems_tryFillOpt (o : Option String) (c : Canvas) :
    (tryFillOpt o c).allItems = c.allItems := by
  unfold tryFillOpt
  split
  · split <;> rfl
  · rfl

/-- Helper: the footer preserves `p`-freedom when `p` ignores text. -/
theorem free_drawFooter {p : Item → Bool}
    (hpT : ∀ x y f sz col s, p (Item.text x y f sz col s) = false)
    (a : BuildArgs) {c : Canvas} (hc : ItemsFree p c) :
    ItemsFree p (drawFooter a c) := by
  unfold drawFooter
  split
  · split
    · split <;>
        exact free_drawString hpT (free_drawString hpT
          (free_of_eq (allItems_setFill _ _)
            (free_of_eq (allItems_setFont _ _ _) hc)))
    · exact free_drawString hpT (free_drawString hpT
        (free_of_eq (allItems_setFont _ _ _) hc))
  · exact hc

/-- Helper: `_show_page` preserves `p`-freedom when `p` ignores text. -/
theorem free_showPageH {p : Item → Bool}
    (hpT : ∀ x y f sz col s, p (Item.text x y f sz col s) = false)
    (a : BuildArgs) {c : Canvas} (hc : ItemsFree p c) :
    ItemsFree p (showPageH a c) :=
  free_of_eq (allItems_colorReset a _)
    (free_of_eq (allItems_showPage _) (free_drawFooter hpT a hc))

/-- Helper: the wrapped-text loop preserves `p`-freedom. -/
theorem free_drawTextLoop {p : Item → Bool}
    (hpT : ∀ x y f sz col s, p (Item.text x y f sz col s) = false)
    (a : BuildArgs) (lh : ℚ) (lines : List String) (st : Canvas × ℚ)
    (hc : ItemsFree p st.1) : ItemsFree p (drawTextLoop a lh lines st).1 := by
  induction lines generalizing st with
  | nil => exact hc
  | cons s rest ih =>
    obtain ⟨c, y⟩ := st
    simp only [drawTextLoop]
    split
    · exact ih _ (free_showPageH hpT a (free_drawString hpT hc))
    · exact ih _ (free_drawString hpT hc)

/-- Helper: the KPI loop preserves `p`-freedom. -/
theorem free_kpiLoop {p : Item → Bool}
    (hpT : ∀ x y f sz col s, p (Item.text x y f sz col s) = false)
    (a : BuildArgs) (kp : List (String × String)) (lbls : List String)
    (st : Canvas × ℚ) (hc : ItemsFree p st.1) :
    ItemsFree p (kpiLoop a kp lbls st).1 := by
  induction lbls generalizing st with
  | nil => exact hc
  | cons lbl rest ih =>
    obtain ⟨c, y⟩ := st
    rcases hv : kp.lookup lbl with _ | v <;> simp only [kpiLoop, hv]
    · exact ih _ hc
    · split
      · exact ih _ (free_showPageH hpT a (free_drawString hpT hc))
      · exact ih _ (free_drawString hpT hc)

/-- Helper: the sparkline loop preserves `p`-freedom when `p` also ignores
sparkline images. -/
theorem free_sparkLoop {p : Item → Bool}
    (hpT : ∀ x y f sz col s, p (Item.text x y f sz col s) = false)
    (hpS : ∀ cat x y w h, p (Item.image (.spark cat) x y w h) = false)
    (a : BuildArgs) (l : List (String × List ℚ)) :
    ∀ (c : Canvas) (x0 y0 : ℚ) (i : ℕ) (yimg : ℚ), ItemsFree p c →
      ItemsFree p (sparkLoop a l c x0 y0 i yimg).1 := by
  induction l with
  | nil => intro c _ _ _ _ hc; exact hc
  | cons kv rest ih =>
    intro c x0 y0 i yimg hc
    simp only [sparkLoop]
    split
    · exact ih _ _ _ _ _ (free_drawImage (hpS _ _ _ _ _)
        (free_showPageH hpT a hc))
    · exact ih _ _ _ _ _ (free_drawImage (hpS _ _ _ _ _) hc)

/-- Helper: the per-category text loop preserves `p`-freedom. -/
theorem free_drawCatLoop {p : Item → Bool}
    (hpT : ∀ x y f sz col s, p (Item.text x y f sz col s) = false)
    (a : BuildArgs) (l : List (String × ℚ)) (st : Canvas × ℚ)
    (hc : ItemsFree p st.1) : ItemsFree p (drawCatLoop a l st).1 := by
  induction l generalizing st with
  | nil => exact hc
  | cons kv rest ih =>
    obtain ⟨c, y⟩ := st
    simp only [drawCatLoop]
    split
    · exact free_drawString hpT hc
    · exact ih _ (free_drawString hpT hc)

/-- Helper: the KPI section preserves `p`-freedom. -/
theorem free_kpiSection {p : Item → Bool}
    (hpT : ∀ x y f sz col s, p (Item.text x y f sz col s) = false)
    (a : BuildArgs) (st : Canvas × ℚ) (hc : ItemsFree p st.1) :
    ItemsFree p (kpiSection a st).1 := by
  unfold kpiSection
  cases a.kpis with
  | none => exact hc
  | some kp =>
    exact free_kpiLoop hpT a kp _ _ (free_of_eq (allItems_setFont _ _ _)
      (free_drawString hpT (free_of_eq (allItems_setFont _ _ _) hc)))

/-- Helper: the sparkline section preserves `p`-freedom when `p` ignores
sparkline images. -/
theorem free_sparkSection {p : Item → Bool}
    (hpT : ∀ x y f sz col s, p (Item.text x y f sz col s) = false)
    (hpS : ∀ cat x y w h, p (Item.image (.spark cat) x y w h) = false)
    (env : ExtEnv) (a : BuildArgs) (st : Canvas × ℚ) (hc : ItemsFree p st.1) :
    ItemsFree p (sparkSection env a st).1 := by
  unfold sparkSection
  split
  · split
    · exact free_sparkLoop hpT hpS a _ _ _ _ _ _
        (free_drawString hpT (free_of_eq (allItems_setFont _ _ _) hc))
    · exact free_drawString hpT (free_of_eq (allItems_setFont _ _ _) hc)
  · exact hc

/-- Helper: the summary section preserves `p`-freedom. -/
theorem free_summarySection {p : Item → Bool}
    (hpT : ∀ x y f sz col s, p (Item.text x y f sz col s) = false)
    (env : ExtEnv) (a : BuildArgs) (st : Canvas × ℚ) (hc : ItemsFree p st.1) :
    ItemsFree p (summarySection env a st).1 := by
  unfold summarySection
  exact free_drawTextLoop hpT a 0.5 _ _ (free_of_eq (allItems_setFont _ _ _)
    (free_drawString hpT (free_of_eq (allItems_setFont _ _ _) hc)))

/-- Helper: the tip section preserves `p`-freedom. -/
theorem free_tipSection {p : Item → Bool}
    (hpT : ∀ x y f sz col s, p (Item.text x y f sz col s) = false)
    (env : ExtEnv) (a : BuildArgs) (st : Canvas × ℚ) (hc : ItemsFree p st.1) :
    ItemsFree p (tipSection env a st).1 := by
  unfold tipSection
  exact free_drawTextLoop hpT a 0.5 _ _ (free_of_eq (allItems_setFont _ _ _)
    (free_drawString hpT (free_of_eq (allItems_setFont _ _ _) hc)))

/-- Helper: the per-activity section preserves `p`-freedom. -/
theorem free_activitySection {p : Item → Bool}
    (hpT : ∀ x y f sz col s, p (Item.text x y f sz col s) = false)
    (a : BuildArgs) (st : Canvas × ℚ) (hc : ItemsFree p st.1) :
    ItemsFree p (activitySection a st).1 := by
  unfold activitySection
  split
  · exact free_drawTextLoop hpT a 0.45 _ _ (free_of_eq (allItems_setFont _ _ _)
      (free_drawString hpT (free_of_eq (allItems_setFont _ _ _) hc)))
  · exact hc

/-- Helper: the per-category section preserves `p`-freedom when `p` also
ignores the pie image. -/
theorem free_categorySection {p : Item → Bool}
    (hpT : ∀ x y f sz col s, p (Item.text x y f sz col s) = false)
    (hpP : ∀ x y w h, p (Item.image .pie x y w h) = false)
    (env : ExtEnv) (a : BuildArgs) (st : Canvas × ℚ) (hc : ItemsFree p st.1) :
    ItemsFree p (categorySection env a st).1 := by
  simp only [categorySection]
  split
  · split
    · exact free_drawImage (hpP _ _ _ _) (free_drawCatLoop hpT a _ _
        (free_of_eq (allItems_setFont _ _ _) (free_drawString hpT
          (free_of_eq (allItems_setFont _ _ _) hc))))
    · exact free_drawCatLoop hpT a _ _ (free_of_eq (allItems_setFont _ _ _)
        (free_drawString hpT (free_of_eq (allItems_setFont _ _ _) hc)))
  · exact hc

/-- Helper: when the pie guard is false, the per-category section draws no
pie image. -/
theorem pieFree_categorySection (env : ExtEnv) (a : BuildArgs)
    (st : Canvas × ℚ) (hc : ItemsFree Item.isPie st.1)
    (hg : (a.include_pie && env.mplOk && env.chartOk &&
      decide (0 < ((a.per_category.getD []).map Prod.snd).sum)) = false) :
    ItemsFree Item.isPie (categorySection env a st).1 := by
  have hpT : ∀ x y f sz col s, Item.isPie (Item.text x y f sz col s) = false :=
    fun _ _ _ _ _ _ => rfl
  simp only [categorySection]
  split
  · rw [hg]
    simp only [Bool.false_eq_true, if_false]
    exact free_drawCatLoop hpT a _ _ (free_of_eq (allItems_setFont _ _ _)
      (free_drawString hpT (free_of_eq (allItems_setFont _ _ _) hc)))
  · exact hc

/-- Helper: the header never draws a pie image. -/
theorem pieFree_initState (env : ExtEnv) (a : BuildArgs) :
    ItemsFree Item.isPie (initState env a).1 := by
  have hpT : ∀ x y f sz col s, Item.isPie (Item.text x y f sz col s) = false :=
    fun _ _ _ _ _ _ => rfl
  have h0 : ItemsFree Item.isPie initialCanvas :=
    fun it hit => absurd hit (List.not_mem_nil it)
  simp only [initState]
  refine free_drawString hpT (free_of_eq (allItems_setFont _ _ _)
    (free_of_eq (allItems_setFill _ _) ?_))
  unfold headerDraw
  have hbase : ItemsFree Item.isPie
      (tryFillOpt a.primary_color (setFont "Helvetica-Bold" 19
        (tryFillOpt a.text_hex initialCanvas))) :=
    free_of_eq (allItems_tryFillOpt _ _) (free_of_eq (allItems_setFont _ _ _)
      (free_of_eq (allItems_tryFillOpt _ _) h0))
  split
  · split
    · exact free_drawString hpT (free_drawImage rfl hbase)
    · exact free_drawString hpT hbase
  · refine free_drawString hpT (free_of_eq (allItems_setFill _ _) ?_)
    split
    · split
      · exact free_drawString hpT (free_of_eq (allItems_setFont _ _ _)
          (free_of_eq (allItems_setFill _ _)
            (free_roundRect (fun _ _ _ _ _ _ => rfl) hbase)))
      · exact hbase
    · exact free_drawString hpT (free_of_eq (allItems_setFont _ _ _)
        (free_of_eq (allItems_setFill _ _)
          (free_roundRect (fun _ _ _ _ _ _ => rfl) hbase)))

/-- C2 (amended): in the source the page-break check runs after each line is
drawn (`drawString`, then `y -= lh`, then `if y < bottom_m + 2cm:
_show_page()`), not before it. Consequently, in a footerless build whose
margins leave the page top above the guard, every line a wrapped-text loop
(KPIs, summary, tip, per-activity) draws other than the first of its block
sits at or above `bottom_m + 2cm`; the first line of a block is drawn at the
unchecked incoming cursor and can fall below the bottom margin, as the
counterexample exhibits. -/
theorem text_loop_breaks_after_drawing (a : BuildArgs)
    (hf : a.footer_text = none) (hgr : botM a + 2 ≤ resetY a) (lh : ℚ)
    (lines : List String) (st : Canvas × ℚ) :
    ∀ it ∈ ((drawTextLoop a lh lines st).1.allItems).drop
      (st.1.allItems.length + 1), botM a + 2 ≤ it.yPos := by
  cases lines with
  | nil =>
    intro it hit
    rw [show drawTextLoop a lh [] st = st from rfl,
      List.drop_eq_nil_of_le (Nat.le_succ _)] at hit
    exact absurd hit (List.not_mem_nil it)
  | cons s rest =>
    obtain ⟨c, y⟩ := st
    simp only [drawTextLoop]
    split
    · intro it hit
      have hlen : (showPageH a (drawString (leftM a) y s c)).allItems
          = c.allItems ++ [Item.text (leftM a) y c.font c.fontSize c.fill s] := by
        rw [allItems_showPageH_none _ _ hf, allItems_drawString]
      refine drawTextLoop_yPos_all a hf hgr lh rest
        (showPageH a (drawString (leftM a) y s c), resetY a) hgr it ?_
      have : (showPageH a (drawString (leftM a) y s c)).allItems.length
          = c.allItems.length + 1 := by rw [hlen]; simp
      dsimp only
      rw [this]
      exact hit
    · rename_i hcmp
      intro it hit
      have hlen : (drawString (leftM a) y s c).allItems.length
          = c.allItems.length + 1 := by rw [allItems_drawString]; simp
      refine drawTextLoop_yPos_all a hf hgr lh rest
        (drawString (leftM a) y s c, y - lh) (le_of_not_lt hcmp) it ?_
      dsimp only
      rw [hlen]
      exact hit

unseal Rat.add Rat.sub Rat.mul Rat.inv Rat.ofScientific in
/-- Witness for C2 (amended) at a concrete loop run: two lines starting at
the page top; the second line is drawn at 18.5cm, above the 3.8cm guard. -/
theorem text_loop_breaks_after_drawing_witness :
    botM c7args + 2 ≤ (Item.text 2 (37/2) "Helvetica" 12 Col.black "l2").yPos :=
  text_loop_breaks_after_drawing c7args rfl (by decide) 0.5 ["l1", "l2"]
    (initialCanvas, 19)
    (Item.text 2 (37/2) "Helvetica" 12 Col.black "l2") (by decide)

set_option maxRecDepth 4000 in
unseal Rat.add Rat.sub Rat.mul Rat.inv Rat.ofScientific in
/-- C2 (counterexample): on this input the first per-activity table line is
drawn at 1.77cm, below the 1.8cm bottom margin -- the break check only runs
after the line has been drawn, so a drawn text line's vertical position can
fall below `bottom_m`. -/
theorem text_line_below_bottom_margin_cx :
    Item.text 2 (177/100) "Helvetica" 11 Col.black "a: 2.00" ∈
        ((build_eco_tips_pdf envStd c2args).1.getD []).flatten ∧
      (177/100 : ℚ) < botM c2args := by
  constructor
  · decide
  · decide

/-- C1 (amended): the per-activity table is not truncated. With a non-empty
per-activity map (and no footer) the finished document contains, after
everything the same build without the table draws, the table heading
followed by one `key: value` line for every entry, sorted descending by
value -- when the cursor drops below `bottom_m + 2cm` the loop breaks the
page and continues on the next page instead of omitting entries (the
truncating low-water policy lives in the per-category list, not here). -/
theorem activity_table_paginates (env : ExtEnv) (a : BuildArgs)
    (l : List (String × ℚ)) (hr : env.reportlabOk = true)
    (hf : a.footer_text = none) (hl : a.per_activity = some l) (hne : l ≠ []) :
    (((build_eco_tips_pdf env a).1.getD []).flatten).map Item.str =
      (((build_eco_tips_pdf env {a with per_activity := none}).1.getD
          []).flatten).map Item.str ++
        "Per-activity emissions (kg CO₂):" ::
          (sortDesc l).map (fun kv => kv.1 ++ ": " ++ format2 kv.2) := by
  have hE : EqExceptTables {a with per_activity := none} a :=
    ⟨rfl, rfl, rfl, rfl, rfl, rfl, rfl, rfl, rfl, rfl, rfl, rfl, rfl, rfl, rfl, rfl⟩
  have hT : listT (some l) = true := by
    cases l with
    | nil => exact absurd rfl hne
    | cons x xs => rfl
  unfold build_eco_tips_pdf
  rw [if_pos hr, if_pos hr]
  simp only [Option.getD_some]
  rw [initState_ext hE, kpiSection_ext hE, sparkSection_ext hE,
    summarySection_ext hE, tipSection_ext hE, categorySection_ext hE rfl,
    activitySection_skip {a with per_activity := none} _ rfl,
    finalizePdf_flatten_none {a with per_activity := none} _ hf,
    finalizePdf_flatten_none a _ hf]
  simp only [activitySection, hl, Option.getD_some, hT, if_true]
  rw [drawTextLoop_str a hf 0.45]
  simp [allItems_setFont, allItems_drawString, Item.str]

unseal Rat.add Rat.sub Rat.mul Rat.inv Rat.ofScientific in
/-- Witness for C1 (amended) at a concrete input: the short document lists
both per-activity entries, largest first. -/
theorem activity_table_paginates_witness :
    (((build_eco_tips_pdf envStd c1argsB).1.getD []).flatten).map Item.str =
      (((build_eco_tips_pdf envStd
          {c1argsB with per_activity := none}).1.getD []).flatten).map Item.str ++
        "Per-activity emissions (kg CO₂):" ::
          (sortDesc [("bus_km", 1), ("meat_kg", 54)]).map
            (fun kv => kv.1 ++ ": " ++ format2 kv.2) :=
  activity_table_paginates envStd c1argsB [("bus_km", 1), ("meat_kg", 54)]
    rfl rfl rfl (by decide)

set_option maxRecDepth 4000 in
unseal Rat.add Rat.sub Rat.mul Rat.inv Rat.ofScientific in
/-- C1 (counterexample): on this input the cursor drops below the guard
after the first table entry, and the two remaining entries are drawn on a
second page rather than silently omitted: the output has two pages and every
entry appears. -/
theorem activity_table_not_truncated_cx :
    ((build_eco_tips_pdf envStd c1args).1.getD []).length = 2 ∧
      "a: 4.00" ∈ (((build_eco_tips_pdf envStd c1args).1.getD []).getD 0
        []).map Item.str ∧
      "b: 3.00" ∈ (((build_eco_tips_pdf envStd c1args).1.getD []).getD 1
        []).map Item.str ∧
      "c: 2.00" ∈ (((build_eco_tips_pdf envStd c1args).1.getD []).getD 1
        []).map Item.str := by
  refine ⟨by decide, by decide, by decide, by decide⟩

/-- Helper: when the pie guard fails or the per-category map is falsy, no
pie image appears anywhere in the finished document. -/
theorem pieFree_build (env : ExtEnv) (a : BuildArgs)
    (hg2 : (a.include_pie && env.mplOk && env.chartOk &&
        decide (0 < ((a.per_category.getD []).map Prod.snd).sum)) = false ∨
      listT a.per_category = false) :
    ∀ it ∈ ((build_eco_tips_pdf env a).1.getD []).flatten,
      it.isPie = false := by
  intro it hit
  have hpT : ∀ x y f sz col s, Item.isPie (Item.text x y f sz col s) = false :=
    fun _ _ _ _ _ _ => rfl
  have hpS : ∀ cat x y w h,
      Item.isPie (Item.image (.spark cat) x y w h) = false :=
    fun _ _ _ _ _ => rfl
  by_cases hrl : env.reportlabOk = true
  · unfold build_eco_tips_pdf at hit
    rw [if_pos hrl] at hit
    simp only [Option.getD_some] at hit
    rw [finalizePdf_flatten] at hit
    have hpre : ItemsFree Item.isPie (tipSection env a (summarySection env a
        (sparkSection env a (kpiSection a (initState env a))))).1 :=
      free_tipSection hpT env a _ (free_summarySection hpT env a _
        (free_sparkSection hpT hpS env a _ (free_kpiSection hpT a _
          (pieFree_initState env a))))
    have hcat : ItemsFree Item.isPie (categorySection env a (tipSection env a
        (summarySection env a (sparkSection env a
          (kpiSection a (initState env a)))))).1 := by
      rcases hg2 with hg | hc
      · exact pieFree_categorySection env a _ hpre hg
      · rw [categorySection_skip env a _ hc]
        exact hpre
    exact free_drawFooter hpT a (free_activitySection hpT a _ hcat) it hit
  · unfold build_eco_tips_pdf at hit
    rw [if_neg hrl] at hit
    simp at hit

/-- C5 (amended): for a Report with a non-empty per-category map, the
rendered category text block is the heading followed by a nonempty initial
segment of the `category: value` entries sorted descending by value with
two-decimal formatting -- rendering stops (silently omitting the remaining
entries) once the cursor drops below the `bottom_m + 6cm` low-water mark;
and a pie image appears in an output only if matplotlib is available and
raises no error, `include_pie` is set, the per-category map is truthy, and
the sum of its values is positive. -/
theorem category_breakdown_truncated_prefix (env : ExtEnv) (a : BuildArgs)
    (l : List (String × ℚ)) (hr : env.reportlabOk = true)
    (hf : a.footer_text = none) (hl : a.per_category = some l) (hne : l ≠ [])
    (hp : a.include_pie = false) (hact : a.per_activity = none) :
    (∃ k, 1 ≤ k ∧ k ≤ l.length ∧
      (((build_eco_tips_pdf env a).1.getD []).flatten).map Item.str =
        (((build_eco_tips_pdf env {a with per_category := none}).1.getD
            []).flatten).map Item.str ++
          "Per-category (kg CO₂):" ::
            ((sortDesc l).map
              (fun kv => kv.1 ++ ": " ++ format2 kv.2)).take k) ∧
    (∀ (env2 : ExtEnv) (a2 : BuildArgs) (pg : List (List Item)) (it : Item),
      (build_eco_tips_pdf env2 a2).1 = some pg → it ∈ pg.flatten →
      it.isPie = true →
      env2.mplOk = true ∧ env2.chartOk = true ∧ a2.include_pie = true ∧
        listT a2.per_category = true ∧
        0 < ((a2.per_category.getD []).map Prod.snd).sum) := by
  constructor
  · have hE : EqExceptTables {a with per_category := none} a :=
      ⟨rfl, rfl, rfl, rfl, rfl, rfl, rfl, rfl, rfl, rfl, rfl, rfl, rfl, rfl,
        rfl, rfl⟩
    have hskipA : listT a.per_activity = false := by rw [hact]; rfl
    have hT : listT (some l) = true := by
      cases l with
      | nil => exact absurd rfl hne
      | cons x xs => rfl
    have hlen := sortDesc_length l
    have hsne : sortDesc l ≠ [] := by
      intro h0
      rw [h0] at hlen
      simp at hlen
      exact hne (List.length_eq_zero.mp hlen.symm)
    unfold build_eco_tips_pdf
    rw [if_pos hr, if_pos hr]
    simp only [Option.getD_some]
    rw [initState_ext hE, kpiSection_ext hE, sparkSection_ext hE,
      summarySection_ext hE, tipSection_ext hE,
      categorySection_skip env {a with per_category := none} _ rfl,
      activitySection_skip {a with per_category := none} _ hskipA,
      activitySection_skip a _ hskipA,
      finalizePdf_flatten_none {a with per_category := none} _ hf,
      finalizePdf_flatten_none a _ hf]
    generalize tipSection env a (summarySection env a (sparkSection env a
      (kpiSection a (initState env a)))) = pre
    simp only [categorySection, hl, Option.getD_some, hT, if_true, hp,
      Bool.false_and, Bool.false_eq_true, if_false]
    obtain ⟨k, hk1, hk2, hk3⟩ := drawCatLoop_str a (sortDesc l)
      (setFont "Helvetica" 11 (drawString (leftM a) (pre.2 - 0.2)
        "Per-category (kg CO₂):" (setFont "Helvetica-Bold" 12 pre.1)),
        pre.2 - 0.2 - 0.6) hsne
    refine ⟨k, hk1, by rw [← hlen]; exact hk2, ?_⟩
    rw [hk3]
    simp [allItems_setFont, allItems_drawString, Item.str]
  · intro env2 a2 pg it hpg hit hpie
    have hflat : pg.flatten =
        ((build_eco_tips_pdf env2 a2).1.getD []).flatten := by rw [hpg]; rfl
    by_cases hg : (a2.include_pie && env2.mplOk && env2.chartOk &&
        decide (0 < ((a2.per_category.getD []).map Prod.snd).sum)) = true
    · have hparts := hg
      simp only [Bool.and_eq_true] at hparts
      obtain ⟨⟨⟨h1, h2⟩, h3⟩, h4⟩ := hparts
      refine ⟨h2, h3, h1, ?_, of_decide_eq_true h4⟩
      by_cases hcat : listT a2.per_category = true
      · exact hcat
      · exfalso
        have := pieFree_build env2 a2 (Or.inr (by
          cases hb : listT a2.per_category
          · rfl
          · exact absurd hb hcat)) it (by rw [← hflat]; exact hit)
        rw [hpie] at this
        exact Bool.true_eq_false.mp this
    · exfalso
      have := pieFree_build env2 a2 (Or.inl (by
        cases hb : (a2.include_pie && env2.mplOk && env2.chartOk &&
          decide (0 < ((a2.per_category.getD []).map Prod.snd).sum))
        · rfl
        · exact absurd hb hg)) it (by rw [← hflat]; exact hit)
      rw [hpie] at this
      exact Bool.true_eq_false.mp this

/-- Witness for C5 (amended) at a concrete input with the scenario's three
categories on an uncramped page. -/
theorem category_breakdown_truncated_prefix_witness :
    (∃ k, 1 ≤ k ∧ k ≤ ([("Energy", (12.5 : ℚ)), ("Transport", 3),
        ("Meals", 1.5)]).length ∧
      (((build_eco_tips_pdf envStd c5argsB).1.getD []).flatten).map Item.str =
        (((build_eco_tips_pdf envStd
            {c5argsB with per_category := none}).1.getD
            []).flatten).map Item.str ++
          "Per-category (kg CO₂):" ::
            ((sortDesc [("Energy", (12.5 : ℚ)), ("Transport", 3),
                ("Meals", 1.5)]).map
              (fun kv => kv.1 ++ ": " ++ format2 kv.2)).take k) ∧
    (∀ (env2 : ExtEnv) (a2 : BuildArgs) (pg : List (List Item)) (it : Item),
      (build_eco_tips_pdf env2 a2).1 = some pg → it ∈ pg.flatten →
      it.isPie = true →
      env2.mplOk = true ∧ env2.chartOk = true ∧ a2.include_pie = true ∧
        listT a2.per_category = true ∧
        0 < ((a2.per_category.getD []).map Prod.snd).sum) :=
  category_breakdown_truncated_prefix envStd c5argsB
    [("Energy", (12.5 : ℚ)), ("Transport", 3), ("Meals", 1.5)]
    rfl rfl rfl (by decide) rfl rfl

set_option maxRecDepth 4000 in
unseal Rat.add Rat.sub Rat.mul Rat.inv Rat.ofScientific in
/-- C5 (counterexample): on this input (the spec scenario's three
categories, no chart capability) only the largest entry is rendered before
the cursor crosses the `bottom_m + 6cm` low-water mark -- "Transport: 3.00"
and "Meals: 1.50" are never drawn, so the text list is not always rendered
with all its entries. -/
theorem category_list_truncated_cx :
    "Energy: 12.50" ∈
        (((build_eco_tips_pdf envStd c5args).1.getD []).flatten).map Item.str ∧
      "Transport: 3.00" ∉
        (((build_eco_tips_pdf envStd c5args).1.getD []).flatten).map Item.str ∧
      "Meals: 1.50" ∉
        (((build_eco_tips_pdf envStd c5args).1.getD []).flatten).map Item.str := by
  refine ⟨by decide, by decide, by decide⟩

/-- Helper: `tryFillOpt` does not change the font name. -/
theorem tryFillOpt_font (o : Option String) (c : Canvas) :
    (tryFillOpt o c).font = c.font := by
  unfold tryFillOpt
  split
  · split <;> rfl
  · rfl

/-- Helper: `tryFillOpt` does not change the font size. -/
theorem tryFillOpt_fontSize (o : Option String) (c : Canvas) :
    (tryFillOpt o c).fontSize = c.fontSize := by
  unfold tryFillOpt
  split
  · split <;> rfl
  · rfl

/-- Helper: with truthy but undecodable logo bytes, `ImageReader` raises and
the outer `except` draws the bare title at the left margin: no logo image,
no badge. -/
theorem headerDraw_undecodable (env : ExtEnv) (a : BuildArgs) (y : ℚ)
    (c : Canvas) (hbT : listT a.logo_bytes = true)
    (hdT : env.decode (a.logo_bytes.getD []) = false) :
    headerDraw env a y c = drawString (leftM a) y (drawTitle a) c := by
  unfold headerDraw
  rw [hbT, hdT]
  rfl

/-- Helper: with truthy but undecodable logo bytes the header block commits
exactly the title line and the meta line. -/
theorem initState_undecodable (env : ExtEnv) (a : BuildArgs)
    (hbT : listT a.logo_bytes = true)
    (hdT : env.decode (a.logo_bytes.getD []) = false) :
    (initState env a).1.allItems =
      [Item.text (leftM a) (resetY a) "Helvetica-Bold" 19
        (tryFillOpt a.primary_color (setFont "Helvetica-Bold" 19
          (tryFillOpt a.text_hex initialCanvas))).fill (drawTitle a),
       Item.text (leftM a) (resetY a - 0.4) "Helvetica" 11 (bodyCol a)
        (metaText env a)] := by
  simp only [initState]
  rw [headerDraw_undecodable env a _ _ hbT hdT]
  rw [allItems_drawString, allItems_setFont]
  show (bodyFillReset a _).allItems ++ _ = _
  unfold bodyFillReset
  rw [allItems_setFill, allItems_drawString, allItems_tryFillOpt,
    allItems_setFont, allItems_tryFillOpt]
  simp [Canvas.allItems, initialCanvas, tryFillOpt_font, tryFillOpt_fontSize,
    setFont, setFill, bodyFillReset, drawString]

/-- C6 (amended): undecodable logo bytes do not abort the build -- the
document is produced with no error and the header still draws the title
text -- but the recovery path draws it bare at the left margin: neither the
logo image nor the fallback badge (no rounded rectangle, and in particular
no badge at all) appears anywhere in the document. -/
theorem undecodable_logo_no_badge (env : ExtEnv) (a : BuildArgs)
    (b : List ℕ) (hr : env.reportlabOk = true) (hb : a.logo_bytes = some b)
    (hbne : b ≠ []) (hd : env.decode b = false) :
    (build_eco_tips_pdf env a).2 = none ∧
      ∃ pgs, (build_eco_tips_pdf env a).1 = some pgs ∧
        (∃ col, Item.text (leftM a) (resetY a) "Helvetica-Bold" 19 col
          (drawTitle a) ∈ pgs.flatten) ∧
        (∀ it ∈ pgs.flatten, it.isRect = false) ∧
        (∀ it ∈ pgs.flatten, it.isLogo = false) := by
  have hbT : listT a.logo_bytes = true := by
    rw [hb]
    cases b with
    | nil => exact absurd rfl hbne
    | cons x xs => rfl
  have hdT : env.decode (a.logo_bytes.getD []) = false := by rw [hb]; exact hd
  have hinit := initState_undecodable env a hbT hdT
  have hpTrect : ∀ x y f sz col s,
      Item.isRect (Item.text x y f sz col s) = false := fun _ _ _ _ _ _ => rfl
  have hpTlogo : ∀ x y f sz col s,
      Item.isLogo (Item.text x y f sz col s) = false := fun _ _ _ _ _ _ => rfl
  unfold build_eco_tips_pdf
  rw [if_pos hr]
  refine ⟨rfl, _, rfl,
    ⟨(tryFillOpt a.primary_color (setFont "Helvetica-Bold" 19
      (tryFillOpt a.text_hex initialCanvas))).fill, ?_⟩, ?_, ?_⟩
  · rw [finalizePdf_flatten]
    apply mem_of_appOnly
      ((((((kpiSection_append a _).trans (sparkSection_append env a _)).trans
        (summarySection_append env a _)).trans (tipSection_append env a _)).trans
        ((categorySection_append env a _).trans
          (activitySection_append a _))).trans (drawFooter_append a _))
    rw [hinit]
    exact List.mem_cons_self _ _
  · intro it hit
    rw [finalizePdf_flatten] at hit
    have h0 : ItemsFree Item.isRect (initState env a).1 := by
      intro it2 hit2
      rw [hinit] at hit2
      rcases List.mem_cons.mp hit2 with h | h
      · rw [h]; rfl
      · rw [List.mem_singleton.mp h]; rfl
    exact free_drawFooter hpTrect a (free_activitySection hpTrect a _
      (free_categorySection hpTrect (fun _ _ _ _ => rfl) env a _
        (free_tipSection hpTrect env a _ (free_summarySection hpTrect env a _
          (free_sparkSection hpTrect (fun _ _ _ _ _ => rfl) env a _
            (free_kpiSection hpTrect a _ h0)))))) it hit
  · intro it hit
    rw [finalizePdf_flatten] at hit
    have h0 : ItemsFree Item.isLogo (initState env a).1 := by
      intro it2 hit2
      rw [hinit] at hit2
      rcases List.mem_cons.mp hit2 with h | h
      · rw [h]; rfl
      · rw [List.mem_singleton.mp h]; rfl
    exact free_drawFooter hpTlogo a (free_activitySection hpTlogo a _
      (free_categorySection hpTlogo (fun _ _ _ _ => rfl) env a _
        (free_tipSection hpTlogo env a _ (free_summarySection hpTlogo env a _
          (free_sparkSection hpTlogo (fun _ _ _ _ _ => rfl) env a _
            (free_kpiSection hpTlogo a _ h0)))))) it hit

/-- Witness for C6 (amended) at a concrete input with three undecodable
logo bytes. -/
theorem undecodable_logo_no_badge_witness :
    (build_eco_tips_pdf envStd c6args).2 = none ∧
      ∃ pgs, (build_eco_tips_pdf envStd c6args).1 = some pgs ∧
        (∃ col, Item.text (leftM c6args) (resetY c6args) "Helvetica-Bold" 19
          col (drawTitle c6args) ∈ pgs.flatten) ∧
        (∀ it ∈ pgs.flatten, it.isRect = false) ∧
        (∀ it ∈ pgs.flatten, it.isLogo = false) :=
  undecodable_logo_no_badge envStd c6args [137, 1, 2] rfl rfl (by decide) rfl

set_option maxRecDepth 4000 in
unseal Rat.add Rat.sub Rat.mul Rat.inv Rat.ofScientific in
/-- C6 (counterexample): with undecodable logo bytes the build succeeds and
the title is drawn, but no rounded rectangle and no "ST" initials appear
anywhere in the output: the fallback badge is NOT drawn in place of the
logo (the badge is only drawn when the logo bytes are absent). -/
theorem undecodable_logo_no_badge_cx :
    (build_eco_tips_pdf envStd c6args).2 = none ∧
      (((build_eco_tips_pdf envStd c6args).1.getD
        []).flatten).filter Item.isRect = [] ∧
      "ST" ∉ (((build_eco_tips_pdf envStd c6args).1.getD
        []).flatten).map Item.str := by
  refine ⟨by decide, by decide, by decide⟩

/-- Helper: a black-only canvas stays black-only when a line is drawn. -/
theorem black_drawString {x y : ℚ} {s : String} {c : Canvas}
    (h : BlackOnly c) : BlackOnly (drawString x y s c) := by
  refine ⟨h.1, ?_⟩
  intro it hit htx
  rw [allItems_drawString] at hit
  rcases List.mem_append.mp hit with h2 | h2
  · exact h.2 it h2 htx
  · rw [List.mem_singleton.mp h2]
    show c.fill = Col.black
    exact h.1

/-- Helper: `setFont` keeps the black-only invariant. -/
theorem black_setFont {f : String} {sz : ℚ} {c : Canvas} (h : BlackOnly c) :
    BlackOnly (setFont f sz c) := ⟨h.1, h.2⟩

/-- Helper: setting the fill to black keeps the invariant. -/
theorem black_setFillBlack {c : Canvas} (h : BlackOnly c) :
    BlackOnly (setFill Col.black c) := ⟨rfl, h.2⟩

/-- Helper: `showPage` resets the fill to black and keeps the items. -/
theorem black_showPage {c : Canvas} (h : BlackOnly c) :
    BlackOnly (showPage c) := by
  refine ⟨rfl, ?_⟩
  intro it hit htx
  rw [allItems_showPage] at hit
  exact h.2 it hit htx

/-- Helper: images carry no text, so they keep the invariant. -/
theorem black_drawImage {src : ImgSrc} {x y w h : ℚ} {c : Canvas}
    (hc : BlackOnly c) : BlackOnly (drawImage src x y w h c) := by
  refine ⟨hc.1, ?_⟩
  intro it hit htx
  rw [allItems_drawImage] at hit
  rcases List.mem_append.mp hit with h2 | h2
  · exact hc.2 it h2 htx
  · rw [List.mem_singleton.mp h2] at htx
    exact absurd htx (by simp [Item.isText])

/-- Helper: rectangles carry no text, so they keep the invariant. -/
theorem black_roundRect {x y w h rad : ℚ} {c : Canvas} (hc : BlackOnly c) :
    BlackOnly (roundRect x y w h rad c) := by
  refine ⟨hc.1, ?_⟩
  intro it hit htx
  rw [allItems_roundRect] at hit
  rcases List.mem_append.mp hit with h2 | h2
  · exact hc.2 it h2 htx
  · rw [List.mem_singleton.mp h2] at htx
    exact absurd htx (by simp [Item.isText])

/-- Helper: with an invalid `text_hex` the post-break color reset sets
black. -/
theorem colorReset_invalid (a : BuildArgs) (c : Canvas)
    (hT : strT a.text_hex = true)
    (hTp : parseHexColor (a.text_hex.getD "") = none) :
    colorReset a c = setFill Col.black c := by
  simp only [colorReset, hT, hTp, if_true]

/-- Helper: with an invalid color the `try: setFillColor except: pass`
block leaves the canvas unchanged. -/
theorem tryFillOpt_invalid (o : Option String) (c : Canvas)
    (hS : strT o = true) (hp : parseHexColor (o.getD "") = none) :
    tryFillOpt o c = c := by
  simp only [tryFillOpt, hS, hp, if_true]

/-- Helper: with an invalid `text_hex` the body color is black. -/
theorem bodyCol_invalid (a : BuildArgs) (hT : strT a.text_hex = true)
    (hTp : parseHexColor (a.text_hex.getD "") = none) :
    bodyCol a = Col.black := by
  simp only [bodyCol, hT, hTp, if_true]

/-- Helper: with an invalid `text_hex` the footer keeps the invariant. -/
theorem black_drawFooter (a : BuildArgs) {c : Canvas}
    (hT : strT a.text_hex = true)
    (hTp : parseHexColor (a.text_hex.getD "") = none) (h : BlackOnly c) :
    BlackOnly (drawFooter a c) := by
  simp only [drawFooter, hT, hTp, if_true]
  split
  · exact black_drawString (black_drawString
      (black_setFillBlack (black_setFont h)))
  · exact h

/-- Helper: with an invalid `text_hex` `_show_page` keeps the invariant. -/
theorem black_showPageH (a : BuildArgs) {c : Canvas}
    (hT : strT a.text_hex = true)
    (hTp : parseHexColor (a.text_hex.getD "") = none) (h : BlackOnly c) :
    BlackOnly (showPageH a c) := by
  unfold showPageH
  rw [colorReset_invalid a _ hT hTp]
  exact black_setFillBlack (black_showPage (black_drawFooter a hT hTp h))

/-- Helper: the wrapped-text loop keeps the invariant. -/
theorem black_drawTextLoop (a : BuildArgs) (hT : strT a.text_hex = true)
    (hTp : parseHexColor (a.text_hex.getD "") = none) (lh : ℚ)
    (lines : List String) (st : Canvas × ℚ) (h : BlackOnly st.1) :
    BlackOnly (drawTextLoop a lh lines st).1 := by
  induction lines generalizing st with
  | nil => exact h
  | cons s rest ih =>
    obtain ⟨c, y⟩ := st
    simp only [drawTextLoop]
    split
    · exact ih _ (black_showPageH a hT hTp (black_drawString h))
    · exact ih _ (black_drawString h)

/-- Helper: the KPI loop keeps the invariant. -/
theorem black_kpiLoop (a : BuildArgs) (hT : strT a.text_hex = true)
    (hTp : parseHexColor (a.text_hex.getD "") = none)
    (kp : List (String × String)) (lbls : List String) (st : Canvas × ℚ)
    (h : BlackOnly st.1) : BlackOnly (kpiLoop a kp lbls st).1 := by
  induction lbls generalizing st with
  | nil => exact h
  | cons lbl rest ih =>
    obtain ⟨c, y⟩ := st
    rcases hv : kp.lookup lbl with _ | v <;> simp only [kpiLoop, hv]
    · exact ih _ h
    · split
      · exact ih _ (black_showPageH a hT hTp (black_drawString h))
      · exact ih _ (black_drawString h)

/-- Helper: the sparkline loop keeps the invariant. -/
theorem black_sparkLoop (a : BuildArgs) (hT : strT a.text_hex = true)
    (hTp : parseHexColor (a.text_hex.getD "") = none)
    (l : List (String × List ℚ)) :
    ∀ (c : Canvas) (x0 y0 : ℚ) (i : ℕ) (yimg : ℚ), BlackOnly c →
      BlackOnly (sparkLoop a l c x0 y0 i yimg).1 := by
  induction l with
  | nil => intro c _ _ _ _ h; exact h
  | cons kv rest ih =>
    intro c x0 y0 i yimg h
    simp only [sparkLoop]
    split
    · exact ih _ _ _ _ _ (black_drawImage (black_showPageH a hT hTp h))
    · exact ih _ _ _ _ _ (black_drawImage h)

/-- Helper: the per-category text loop keeps the invariant. -/
theorem black_drawCatLoop (a : BuildArgs) (l : List (String × ℚ))
    (st : Canvas × ℚ) (h : BlackOnly st.1) :
    BlackOnly (drawCatLoop a l st).1 := by
  induction l generalizing st with
  | nil => exact h
  | cons kv rest ih =>
    obtain ⟨c, y⟩ := st
    simp only [drawCatLoop]
    split
    · exact black_drawString h
    · exact ih _ (black_drawString h)

/-- Helper: the KPI section keeps the invariant. -/
theorem black_kpiSection (a : BuildArgs) (hT : strT a.text_hex = true)
    (hTp : parseHexColor (a.text_hex.getD "") = none) (st : Canvas × ℚ)
    (h : BlackOnly st.1) : BlackOnly (kpiSection a st).1 := by
  unfold kpiSection
  cases a.kpis with
  | none => exact h
  | some kp =>
    exact black_kpiLoop a hT hTp kp _ _
      (black_setFont (black_drawString (black_setFont h)))

/-- Helper: the sparkline section keeps the invariant. -/
theorem black_sparkSection (env : ExtEnv) (a : BuildArgs)
    (hT : strT a.text_hex = true)
    (hTp : parseHexColor (a.text_hex.getD "") = none) (st : Canvas × ℚ)
    (h : BlackOnly st.1) : BlackOnly (sparkSection env a st).1 := by
  unfold sparkSection
  split
  · split
    · exact black_sparkLoop a hT hTp _ _ _ _ _ _
        (black_drawString (black_setFont h))
    · exact black_drawString (black_setFont h)
  · exact h

/-- Helper: the summary section keeps the invariant. -/
theorem black_summarySection (env : ExtEnv) (a : BuildArgs)
    (hT : strT a.text_hex = true)
    (hTp : parseHexColor (a.text_hex.getD "") = none) (st : Canvas × ℚ)
    (h : BlackOnly st.1) : BlackOnly (summarySection env a st).1 := by
  unfold summarySection
  exact black_drawTextLoop a hT hTp 0.5 _ _
    (black_setFont (black_drawString (black_setFont h)))

/-- Helper: the tip section keeps the invariant. -/
theorem black_tipSection (env : ExtEnv) (a : BuildArgs)
    (hT : strT a.text_hex = true)
    (hTp : parseHexColor (a.text_hex.getD "") = none) (st : Canvas × ℚ)
    (h : BlackOnly st.1) : BlackOnly (tipSection env a st).1 := by
  unfold tipSection
  exact black_drawTextLoop a hT hTp 0.5 _ _
    (black_setFont (black_drawString (black_setFont h)))

/-- Helper: the per-category section keeps the invariant. -/
theorem black_categorySection (env : ExtEnv) (a : BuildArgs) (st : Canvas × ℚ)
    (h : BlackOnly st.1) : BlackOnly (categorySection env a st).1 := by
  simp only [categorySection]
  split
  · split
    · exact black_drawImage (black_drawCatLoop a _ _
        (black_setFont (black_drawString (black_setFont h))))
    · exact black_drawCatLoop a _ _
        (black_setFont (black_drawString (black_setFont h)))
  · exact h

/-- Helper: the per-activity section keeps the invariant. -/
theorem black_activitySection (a : BuildArgs) (hT : strT a.text_hex = true)
    (hTp : parseHexColor (a.text_hex.getD "") = none) (st : Canvas × ℚ)
    (h : BlackOnly st.1) : BlackOnly (activitySection a st).1 := by
  unfold activitySection
  split
  · exact black_drawTextLoop a hT hTp 0.45 _ _
      (black_setFont (black_drawString (black_setFont h)))
  · exact h

/-- Helper: with invalid text and primary colors the whole header block
keeps the invariant (the badge sub-block raises at `setFillColor` before
drawing anything, so the white initials are never set). -/
theorem black_headerDraw (env : ExtEnv) (a : BuildArgs) (y : ℚ) {c : Canvas}
    (hP : strT a.primary_color = true)
    (hPp : parseHexColor (a.primary_color.getD "") = none) (h : BlackOnly c) :
    BlackOnly (headerDraw env a y c) := by
  simp only [headerDraw, hP, hPp, if_true]
  split
  · split
    · exact black_drawString (black_drawImage h)
    · exact black_drawString h
  · exact black_drawString (black_setFillBlack h)

/-- Helper: with invalid colors the title, header and meta line keep the
invariant. -/
theorem black_initState (env : ExtEnv) (a : BuildArgs)
    (hT : strT a.text_hex = true)
    (hTp : parseHexColor (a.text_hex.getD "") = none)
    (hP : strT a.primary_color = true)
    (hPp : parseHexColor (a.primary_color.getD "") = none) :
    BlackOnly (initState env a).1 := by
  have h0 : BlackOnly initialCanvas :=
    ⟨rfl, fun it hit _ => absurd hit (List.not_mem_nil it)⟩
  simp only [initState]
  rw [tryFillOpt_invalid a.text_hex _ hT hTp,
    tryFillOpt_invalid a.primary_color _ hP hPp]
  unfold bodyFillReset
  rw [bodyCol_invalid a hT hTp]
  exact black_drawString (black_setFont (black_setFillBlack
    (black_headerDraw env a _ hP hPp (black_setFont h0))))

/-- C4: with all three theme colors present but invalid hex strings, the
build still succeeds (no error surfaces to the caller) and the produced
document uses only the built-in default colors: every drawn text line is
black (the invalid `HexColor` calls raise inside local `try` blocks that
fall back to the defaults, and the white badge initials are unreachable
because the badge block raises before setting white). -/
theorem invalid_theme_colors_default (env : ExtEnv) (a : BuildArgs)
    (t p g : String) (hr : env.reportlabOk = true)
    (ht : a.text_hex = some t) (ht1 : t ≠ "") (ht2 : parseHexColor t = none)
    (hp : a.primary_color = some p) (hp1 : p ≠ "")
    (hp2 : parseHexColor p = none)
    (_hg : a.chart_bg_hex = some g) (_hg1 : g ≠ "")
    (_hg2 : parseHexColor g = none) :
    (build_eco_tips_pdf env a).2 = none ∧
      ∀ pgs, (build_eco_tips_pdf env a).1 = some pgs →
        ∀ it ∈ pgs.flatten, it.isText = true → it.col = Col.black := by
  have hT : strT a.text_hex = true := by
    rw [ht]
    simp [strT, ht1]
  have hTp : parseHexColor (a.text_hex.getD "") = none := by rw [ht]; exact ht2
  have hP : strT a.primary_color = true := by
    rw [hp]
    simp [strT, hp1]
  have hPp : parseHexColor (a.primary_color.getD "") = none := by
    rw [hp]; exact hp2
  unfold build_eco_tips_pdf
  rw [if_pos hr]
  refine ⟨rfl, ?_⟩
  intro pgs hpgs it hit htx
  obtain rfl := (Option.some_inj.mp hpgs).symm
  rw [finalizePdf_flatten] at hit
  exact (black_drawFooter a hT hTp (black_activitySection a hT hTp _
    (black_categorySection env a _ (black_tipSection env a hT hTp _
      (black_summarySection env a hT hTp _ (black_sparkSection env a hT hTp _
        (black_kpiSection a hT hTp _
          (black_initState env a hT hTp hP hPp)))))))).2 it hit htx

/-- Witness for C4 at a concrete input whose three colors are invalid hex
strings. -/
theorem invalid_theme_colors_default_witness :
    (build_eco_tips_pdf envStd c4args).2 = none ∧
      ∀ pgs, (build_eco_tips_pdf envStd c4args).1 = some pgs →
        ∀ it ∈ pgs.flatten, it.isText = true → it.col = Col.black :=
  invalid_theme_colors_default envStd c4args "zzz" "not-a-color" "#12345"
    rfl rfl (by decide) (by decide) rfl (by decide) (by decide) rfl
    (by decide) (by decide)

/-- C10: `compute_streak` terminates (it is a total function of the model;
the loop walks back one day at a time through the finite set of logged
dates) and returns the count of consecutive calendar days ending at
`date_val` that all appear in the history: every day in the window is
logged, the day immediately before the window is not, and the result is 0
for an empty history or an unlogged `date_val`. -/
theorem compute_streak_consecutive_days (hist : List ℤ) (d : ℤ) :
    (∀ i : ℕ, i < compute_streak hist d → (d - i) ∈ hist) ∧
      (d - (compute_streak hist d : ℤ)) ∉ hist ∧
      (d ∉ hist → compute_streak hist d = 0) ∧
      (hist = [] → compute_streak hist d = 0) := by
  by_cases he : hist = []
  · subst he
    refine ⟨fun i hi => absurd hi (by simp [compute_streak]), ?_, fun _ => rfl, fun _ => rfl⟩
    simp [compute_streak]
  · have hs := streakLoop_spec (hist.toFinset.filter (fun x => x ≤ d)).card
      hist.toFinset d le_rfl
    rw [compute_streak, if_neg he]
    refine ⟨fun i hi => ?_, ?_, fun hd => ?_, fun h => absurd h he⟩
    · have := hs.1 i hi
      rwa [List.mem_toFinset] at this
    · have := hs.2
      rwa [List.mem_toFinset] at this
    · rw [streakLoop, dif_neg (by rwa [List.mem_toFinset])]

/-- Witness for C10 at a concrete history: day 4 is not logged, so the
streak ending there is 0. -/
theorem compute_streak_consecutive_days_witness :
    compute_streak [(5 : ℤ)] 4 = 0 :=
  (compute_streak_consecutive_days [(5 : ℤ)] 4).2.2.1 (by decide)

/-- Helper: the category subtotal fold is the sum of the per-key terms. -/
theorem foldl_factor_sum (factors : String → Option ℚ)
    (data : List (String × Option ℚ)) (keys : List String) (init : ℚ) :
    keys.foldl (fun subtotal k =>
        match factors k with
        | some factor => subtotal + pyAmt data k * factor
        | none => subtotal) init =
      init + (keys.map (fun k =>
        match factors k with
        | some factor => pyAmt data k * factor
        | none => 0)).sum := by
  induction keys generalizing init with
  | nil => simp
  | cons k ks ih =>
    simp only [List.foldl_cons, List.map_cons, List.sum_cons, ih]
    cases factors k with
    | none => simp
    | some factor => simp; ring

/-- Helper: the fold only looks at the data through `pyAmt` at its keys. -/
theorem foldl_factor_congr (factors : String → Option ℚ)
    (data data2 : List (String × Option ℚ)) (keys : List String) (init : ℚ)
    (h : ∀ k ∈ keys, data.lookup k = data2.lookup k) :
    keys.foldl (fun subtotal k =>
        match factors k with
        | some factor => subtotal + pyAmt data k * factor
        | none => subtotal) init =
      keys.foldl (fun subtotal k =>
        match factors k with
        | some factor => subtotal + pyAmt data2 k * factor
        | none => subtotal) init := by
  induction keys generalizing init with
  | nil => rfl
  | cons k ks ih =>
    have hk : pyAmt data k = pyAmt data2 k := by
      unfold pyAmt
      rw [h k (by simp)]
    simp only [List.foldl_cons, hk]
    exact ih _ (fun k2 hk2 => h k2 (List.mem_cons_of_mem _ hk2))

/-- C9: `compute_category_emissions` returns exactly the keys "Energy",
"Transport", "Meals"; the value of each category is the two-decimal rounding
of the sum, over the category's keys that have an emission factor, of the
activity amount (0 for a missing or `None` entry) times the factor; and
entries of the activity data outside the category map never affect the
result. -/
theorem compute_category_emissions_spec (factors : String → Option ℚ)
    (data : List (String × Option ℚ)) :
    (compute_category_emissions factors data).map Prod.fst =
        ["Energy", "Transport", "Meals"] ∧
      (∀ cat keys, (cat, keys) ∈ CATEGORY_MAP →
        (compute_category_emissions factors data).lookup cat =
          some (round2 ((keys.map (fun k =>
            match factors k with
            | some factor => pyAmt data k * factor
            | none => 0)).sum))) ∧
      (∀ data2, (∀ k ∈ ALL_KEYS, data.lookup k = data2.lookup k) →
        compute_category_emissions factors data =
          compute_category_emissions factors data2) := by
  refine ⟨by simp [compute_category_emissions, CATEGORY_MAP], ?_, ?_⟩
  · intro cat keys hmem
    have : cat = "Energy" ∧ keys = (CATEGORY_MAP.get ⟨0, by decide⟩).2 ∨
        cat = "Transport" ∧ keys = (CATEGORY_MAP.get ⟨1, by decide⟩).2 ∨
        cat = "Meals" ∧ keys = (CATEGORY_MAP.get ⟨2, by decide⟩).2 := by
      simp only [CATEGORY_MAP, List.mem_cons, List.not_mem_nil, or_false,
        Prod.mk.injEq] at hmem
      rcases hmem with ⟨h1, h2⟩ | ⟨h1, h2⟩ | ⟨h1, h2⟩ <;> simp_all [CATEGORY_MAP]
    rcases this with ⟨hc, hk⟩ | ⟨hc, hk⟩ | ⟨hc, hk⟩ <;> subst hc <;> subst hk <;>
      simp [compute_category_emissions, CATEGORY_MAP, List.lookup,
        foldl_factor_sum factors data]
  · intro data2 h
    unfold compute_category_emissions
    apply List.map_congr_left
    intro ck hck
    have hsub : ∀ k ∈ ck.2, data.lookup k = data2.lookup k := by
      intro k hk
      apply h
      unfold ALL_KEYS
      exact List.mem_flatten.mpr ⟨ck.2, List.mem_map.mpr ⟨ck, hck, rfl⟩, hk⟩
    rw [foldl_factor_congr factors data data2 ck.2 0 hsub]

/-- Witness for C9: with a factor table covering `meat_kg` and `bus_km`,
adding an activity entry for a key outside every category leaves the result
unchanged. -/
theorem compute_category_emissions_spec_witness :
    compute_category_emissions factorsW dataW =
      compute_category_emissions factorsW dataW2 :=
  (compute_category_emissions_spec factorsW dataW).2.2 dataW2 (by decide)

/-- Helper: the committed pages of `_show_page` end in the page being
closed, so the final page list is never empty. -/
theorem finalizePdf_ne_nil (a : BuildArgs) (st : Canvas × ℚ) :
    finalizePdf a st ≠ [] := by
  unfold finalizePdf showPageH colorReset
  split
  · split <;> simp [setFill, showPage]
  · simp [showPage]

/-- C3: every invocation of `build_eco_tips_pdf` returns either a document
(a nonempty, page-terminated page list, the final `_show_page()` having
committed the last page) together with no error, or an error message
together with no document -- never both and never a partial document. -/
theorem build_all_or_nothing (env : ExtEnv) (a : BuildArgs) :
    ((build_eco_tips_pdf env a).1.isSome = true ∧
        (build_eco_tips_pdf env a).2 = none ∧
        (build_eco_tips_pdf env a).1.getD [] ≠ []) ∨
      ((build_eco_tips_pdf env a).1 = none ∧
        (build_eco_tips_pdf env a).2.isSome = true) := by
  by_cases h : env.reportlabOk = true
  · left
    unfold build_eco_tips_pdf
    rw [if_pos h]
    exact ⟨rfl, rfl, finalizePdf_ne_nil a _⟩
  · right
    unfold build_eco_tips_pdf
    rw [if_neg h]
    exact ⟨rfl, rfl⟩

/-- C7: the builder is a pure function of its arguments -- the model,
mirroring the source, references no clock, random source or global mutable
state inside `build_eco_tips_pdf` -- so identical Report and Theme inputs
produce identical output documents. -/
theorem build_deterministic (env : ExtEnv) (a1 a2 : BuildArgs) (h : a1 = a2) :
    build_eco_tips_pdf env a1 = build_eco_tips_pdf env a2 := by rw [h]

/-- Witness for C7 at a concrete input. -/
theorem build_deterministic_witness :
    build_eco_tips_pdf envStd c7args = build_eco_tips_pdf envStd c7args :=
  build_deterministic envStd c7args c7args rfl

/-- C8: with an empty per-activity map the per-activity section is the
identity on the canvas and cursor (no heading, no lines, zero height), and
the whole build coincides with the build that has no per-activity map at
all -- every other section is unaffected. -/
theorem empty_per_activity_omitted (env : ExtEnv) (a : BuildArgs)
    (st : Canvas × ℚ) :
    activitySection {a with per_activity := some []} st = st ∧
      build_eco_tips_pdf env {a with per_activity := some []} =
        build_eco_tips_pdf env {a with per_activity := none} := by
  refine ⟨rfl, ?_⟩
  have hE : EqExceptTables {a with per_activity := some []}
      {a with per_activity := none} :=
    ⟨rfl, rfl, rfl, rfl, rfl, rfl, rfl, rfl, rfl, rfl, rfl, rfl, rfl, rfl, rfl, rfl⟩
  unfold build_eco_tips_pdf
  by_cases h : env.reportlabOk = true
  · rw [if_pos h, if_pos h, initState_ext hE, kpiSection_ext hE,
      sparkSection_ext hE, summarySection_ext hE, tipSection_ext hE,
      categorySection_ext hE rfl,
      activitySection_skip {a with per_activity := some []} _ rfl,
      activitySection_skip {a with per_activity := none} _ rfl,
      finalizePdf_ext hE]
  · rw [if_neg h, if_neg h]

end SustainabilityTracker
